import Mathlib

/-
  Verification of the junforex adaptive trading engine.

  Shallow embedding of the python sources (adx_analyzer.py, indicators.py,
  strategies.py, professional_ranging.py, professional_executor.py,
  risk_manager.py, stops_implementation.py, config.py, main.py) over exact
  rationals, with an explicit float model F for the places where pandas and
  numpy arithmetic can produce NaN or signed infinities.
-/

set_option maxRecDepth 4000

/-- Model of an IEEE-754 double as used by pandas and numpy: an exact rational
value, NaN, or a signed infinity.  Exact rationals stand for the reals the
source manipulates; the claims under study only compare and combine values, so
no rounding model is needed, but NaN and infinity propagation is modelled
faithfully. -/
inductive F where
  | val (q : ℚ)
  | nan
  | inf
  | ninf
deriving DecidableEq, Repr

namespace F

/-- IEEE comparison: strict less-than; any comparison with NaN is false. -/
def flt : F → F → Bool
  | val a, val b => a < b
  | val _, inf => true
  | ninf, val _ => true
  | ninf, inf => true
  | _, _ => false

/-- IEEE comparison: less-or-equal; any comparison with NaN is false. -/
def fle : F → F → Bool
  | val a, val b => a ≤ b
  | val _, inf => true
  | ninf, val _ => true
  | ninf, inf => true
  | inf, inf => true
  | ninf, ninf => true
  | _, _ => false

/-- IEEE comparison: strict greater-than. -/
def fgt (a b : F) : Bool := flt b a

/-- IEEE comparison: greater-or-equal. -/
def fge (a b : F) : Bool := fle b a

/-- IEEE equality test (NaN is not equal to anything, including itself). -/
def feq : F → F → Bool
  | val a, val b => a = b
  | inf, inf => true
  | ninf, ninf => true
  | _, _ => false

def isNan : F → Bool
  | nan => true
  | _ => false

def neg : F → F
  | val q => val (-q)
  | nan => nan
  | inf => ninf
  | ninf => inf

def add : F → F → F
  | val a, val b => val (a + b)
  | nan, _ => nan
  | _, nan => nan
  | inf, ninf => nan
  | ninf, inf => nan
  | inf, _ => inf
  | _, inf => inf
  | ninf, _ => ninf
  | _, ninf => ninf

def sub (a b : F) : F := add a (neg b)

def fabs : F → F
  | val q => val |q|
  | nan => nan
  | inf => inf
  | ninf => inf

def mul : F → F → F
  | val a, val b => val (a * b)
  | nan, _ => nan
  | _, nan => nan
  | inf, inf => inf
  | inf, ninf => ninf
  | ninf, inf => ninf
  | ninf, ninf => inf
  | inf, val b => if 0 < b then inf else if b < 0 then ninf else nan
  | val a, inf => if 0 < a then inf else if a < 0 then ninf else nan
  | ninf, val b => if 0 < b then ninf else if b < 0 then inf else nan
  | val a, ninf => if 0 < a then ninf else if a < 0 then inf else nan

/-- Division of two exact rationals with IEEE zero-denominator behaviour:
positive/0 = +inf, negative/0 = -inf, 0/0 = NaN. -/
def qdiv (a b : ℚ) : F :=
  if b ≠ 0 then val (a / b)
  else if 0 < a then inf
  else if a < 0 then ninf
  else nan

def fdiv : F → F → F
  | val a, val b => qdiv a b
  | nan, _ => nan
  | _, nan => nan
  | inf, inf => nan
  | inf, ninf => nan
  | ninf, inf => nan
  | ninf, ninf => nan
  | inf, val b => if 0 ≤ b then inf else ninf
  | ninf, val b => if 0 ≤ b then ninf else inf
  | val _, inf => val 0
  | val _, ninf => val 0

/-- pandas Series.fillna(0) on one cell: NaN becomes 0, everything else
(including infinities) is kept. -/
def fill0 : F → F
  | nan => val 0
  | x => x

/-- The cell is an ordinary number lying in the interval [0, 100]. -/
def isVal01 : F → Bool
  | val q => 0 ≤ q ∧ q ≤ 100
  | _ => false

/-- The python expression min(a, b): the first argument is kept unless the
second compares strictly smaller (so min(x, nan) = x but min(nan, x) = nan). -/
def pymin (a b : F) : F := if flt b a then b else a

/-- The python expression max(a, b): the first argument is kept unless the
second compares strictly greater. -/
def pymax (a b : F) : F := if fgt b a then b else a

end F

/-- python round(x, 3): round half to even at three decimal places, on the
exact rational model of the float. -/
def pyRound3 (q : ℚ) : ℚ :=
  let s : ℚ := q * 1000
  let fl : ℤ := ⌊s⌋
  let frac : ℚ := s - fl
  let r : ℤ :=
    if frac < 1/2 then fl
    else if frac > 1/2 then fl + 1
    else if fl % 2 = 0 then fl else fl + 1
  (r : ℚ) / 1000

/-- python int(x): truncation toward zero. -/
def pyInt (q : ℚ) : ℤ :=
  if 0 ≤ q then ⌊q⌋ else -⌊-q⌋

/-- Insertion into a list sorted by the boolean relation le. -/
def insSorted (le : ℚ → ℚ → Bool) (x : ℚ) : List ℚ → List ℚ
  | [] => [x]
  | y :: ys => if le x y then x :: y :: ys else y :: insSorted le x ys

/-- Insertion sort by the boolean relation le; models the python built-in
sorted (stability does not matter for the properties studied here, only the
sorted value sequence). -/
def pySortBy (le : ℚ → ℚ → Bool) : List ℚ → List ℚ
  | [] => []
  | x :: xs => insSorted le x (pySortBy le xs)

/-- sorted(xs) in python: ascending. -/
def pySortAsc : List ℚ → List ℚ := pySortBy (fun a b => a ≤ b)

/-- sorted(xs, reverse=True) in python: descending. -/
def pySortDesc : List ℚ → List ℚ := pySortBy (fun a b => b ≤ a)

/- ===== adx_analyzer.py : ADXAnalyzer.calculate_adx and MarketAnalysis ===== -/

namespace ADX

/-- One input bar of the high/low/close series fed to calculate_adx. -/
structure Bar where
  high : ℚ
  low : ℚ
  close : ℚ
deriving DecidableEq, Repr, Inhabited

/-- Wilder smoothing coefficient: self.alpha = 1.0 / period, period = 14. -/
def alpha : ℚ := 1 / 14

/-- Steps 1 and 2 of calculate_adx for every index after the first, carrying
the previous bar: TR = max(high-low, abs(high-prevClose), abs(low-prevClose)),
+DM = up if (up > down and up > 0) else 0 with up = high.diff(), and -DM
symmetric on -low.diff().  Returns (TR, +DM, -DM) per index. -/
def trdmGo (prev : Bar) : List Bar → List (ℚ × ℚ × ℚ)
  | [] => []
  | b :: bs =>
    let tr := max (b.high - b.low) (max |b.high - prev.close| |b.low - prev.close|)
    let up := b.high - prev.high
    let down := prev.low - b.low
    let pdm := if up > down ∧ up > 0 then up else 0
    let ndm := if down > up ∧ down > 0 then down else 0
    (tr, pdm, ndm) :: trdmGo b bs

/-- (TR, +DM, -DM) for the whole series.  At index 0 the shifted close and the
diffs are NaN, so pandas concat(...).max(axis=1) keeps only high-low for TR and
np.where gives 0 for both DMs (comparisons with NaN are false). -/
def trdm : List Bar → List (ℚ × ℚ × ℚ)
  | [] => []
  | b :: bs => (b.high - b.low, (0 : ℚ), (0 : ℚ)) :: trdmGo b bs

def trList (bars : List Bar) : List ℚ := (trdm bars).map (fun t => t.1)

def posDMList (bars : List Bar) : List ℚ := (trdm bars).map (fun t => t.2.1)

def negDMList (bars : List Bar) : List ℚ := (trdm bars).map (fun t => t.2.2)

/-- ewm(alpha=a, adjust=False).mean() on a NaN-free series, after the seed:
s[t] = (1-a)*s[t-1] + a*x[t]. -/
def wilderGo (a prev : ℚ) : List ℚ → List ℚ
  | [] => []
  | x :: xs =>
    let s := (1 - a) * prev + a * x
    s :: wilderGo a s xs

/-- Wilder smoothing: ewm(alpha=a, adjust=False).mean() on a NaN-free series,
seeded with the first observation. -/
def wilder (a : ℚ) : List ℚ → List ℚ
  | [] => []
  | x :: xs => x :: wilderGo a x xs

/-- One cell of 100 * dm_smooth / atr, with IEEE behaviour when atr = 0. -/
def diCell (d a : ℚ) : F := F.qdiv (100 * d) a

/-- One cell of np.where(di_sum == 0, 0, 100 * abs(pos_di - neg_di) / di_sum).
The numpy == test is false on NaN and on infinities. -/
def dxCell (p n : F) : F :=
  let s := F.add p n
  if F.feq s (F.val 0) then F.val 0
  else F.fdiv (F.mul (F.val 100) (F.fabs (F.sub p n))) s

/-- The pandas ewm(alpha=a, adjust=False, ignore_na=False).mean() loop on a
series that may contain NaN (and infinities): output is NaN until the first
valid observation seeds the mean; at a NaN input the current mean is emitted
unchanged but its weight still decays; at a valid input the mean becomes
(oldWt*mean + a*x)/(oldWt + a) and the weight resets to 1. -/
def ewmGo (a : ℚ) (wa : F) (oldWt : ℚ) : List F → List F
  | [] => []
  | x :: xs =>
    if F.isNan wa then
      if F.isNan x then wa :: ewmGo a wa oldWt xs
      else x :: ewmGo a x 1 xs
    else
      let w := oldWt * (1 - a)
      if F.isNan x then
        wa :: ewmGo a wa w xs
      else
        let wa2 := F.fdiv (F.add (F.mul (F.val w) wa) (F.mul (F.val a) x)) (F.val (w + a))
        wa2 :: ewmGo a wa2 1 xs

def ewmF (a : ℚ) (xs : List F) : List F := ewmGo a F.nan 1 xs

/-- ADXAnalyzer.calculate_adx(high, low, close): returns (adx, +DI, -DI), each
fillna(0) at the end (NaN becomes 0; infinities, when they occur, survive). -/
def calculateADX (bars : List Bar) : List F × List F × List F :=
  let atr := wilder alpha (trList bars)
  let pds := wilder alpha (posDMList bars)
  let nds := wilder alpha (negDMList bars)
  let posDI := List.zipWith diCell pds atr
  let negDI := List.zipWith diCell nds atr
  let dx := List.zipWith dxCell posDI negDI
  let adx := ewmF alpha dx
  (adx.map F.fill0, posDI.map F.fill0, negDI.map F.fill0)

/-- MarketAnalysis.analyze: with fewer than 30 bars the three columns are set
to the scalar 0.0; otherwise they come from calculate_adx. -/
def analyze (bars : List Bar) : List F × List F × List F :=
  if bars.length < 30 then
    (List.replicate bars.length (F.val 0),
     List.replicate bars.length (F.val 0),
     List.replicate bars.length (F.val 0))
  else calculateADX bars

/-- A bar whose close lies between its low and its high, as every real market
bar does.  The source never checks this; the C2 counterexample exploits it. -/
def WFBar (b : Bar) : Prop := b.low ≤ b.close ∧ b.close ≤ b.high

instance (b : Bar) : Decidable (WFBar b) := by unfold WFBar; infer_instance

/-- A cell that is either NaN or an ordinary number in [0, 100]. -/
def GoodCell (x : F) : Prop := x = F.nan ∨ ∃ q : ℚ, x = F.val q ∧ 0 ≤ q ∧ q ≤ 100

end ADX

/- ===== config.py : STRATEGY_PARAMS and RISK_CONFIG ===== -/

/-- config.py STRATEGY_PARAMS (the fields the embedded components read). -/
structure StrategyParams where
  ema_short : ℕ
  ema_medium : ℕ
  ema_long : ℕ
  rsi_period : ℕ
  rsi_oversold : ℚ
  rsi_overbought : ℚ
  macd_fast : ℕ
  macd_slow : ℕ
  macd_signal : ℕ
  bb_period : ℕ
  bb_std : ℚ
  atr_period : ℕ
  atr_multiplier_sl : ℚ
  atr_multiplier_tp : ℚ
  signal_threshold_buy : ℤ
  signal_threshold_sell : ℤ
  enable_vol_filter : Bool
  vol_period : ℕ
  vol_threshold : ℚ

def STRATEGY_PARAMS : StrategyParams where
  ema_short := 8
  ema_medium := 21
  ema_long := 100
  rsi_period := 14
  rsi_oversold := 38
  rsi_overbought := 62
  macd_fast := 12
  macd_slow := 26
  macd_signal := 9
  bb_period := 20
  bb_std := 9/5
  atr_period := 14
  atr_multiplier_sl := 6/5
  atr_multiplier_tp := 5
  signal_threshold_buy := 2
  signal_threshold_sell := -2
  enable_vol_filter := true
  vol_period := 10
  vol_threshold := 9/20

/-- config.py RISK_CONFIG (the fields the embedded components read). -/
structure RiskConfig where
  max_daily_loss : ℚ
  max_drawdown : ℚ
  take_profit_ratio : ℚ
  trailing_stop : Bool
  break_even_trigger : ℚ
  min_profit_move_sl : ℚ
  trailing_distance : ℚ

def RISK_CONFIG : RiskConfig where
  max_daily_loss := 3/50
  max_drawdown := 3/20
  take_profit_ratio := 3/2
  trailing_stop := false
  break_even_trigger := 3/5
  min_profit_move_sl := 1
  trailing_distance := 6/5

/-- pandas Series.std and Series.autocorr involve real square roots, which have
no computable exact form on rationals.  They are taken as parameters of the
embedding; every theorem about a definition built on them is proved for all
instantiations, and witnesses instantiate them with a concrete function. -/
structure StatPrims where
  std : List ℚ → ℚ
  autocorr : List F → F

/-- A concrete instantiation used only by closed witness statements; the value
returned never influences the property being witnessed. -/
def primsZero : StatPrims where
  std := fun _ => 0
  autocorr := fun _ => F.nan

/- ===== indicators.py : TechnicalIndicators ===== -/

namespace Ind

/-- python list.tail(k) on a pandas Series: the last k elements (the whole
series when it is shorter). -/
def pyTail (k : ℕ) (xs : List ℚ) : List ℚ := xs.drop (xs.length - k)

def pyTailF (k : ℕ) (xs : List F) : List F := xs.drop (xs.length - k)

/-- Arithmetic mean of a rational list (the callers guard nonemptiness; on an
empty list pandas yields NaN, handled at each call site). -/
def listMean (xs : List ℚ) : ℚ := xs.sum / (xs.length : ℚ)

/-- calculate_ema: data.ewm(span=period, adjust=False).mean(), i.e. Wilder
recursion with alpha = 2/(period+1) seeded at the first value. -/
def ema (period : ℕ) (xs : List ℚ) : List ℚ :=
  ADX.wilder (2 / ((period : ℚ) + 1)) xs

/-- rolling(window=w).mean() on a NaN-free series: NaN until the window is
full, then the plain mean of the last w values. -/
def rollingMean (w : ℕ) (xs : List ℚ) : List F :=
  (List.range xs.length).map (fun t =>
    if t + 1 < w then F.nan
    else F.val (listMean ((xs.take (t + 1)).drop (t + 1 - w))))

/-- rolling(window=w).mean() on a series that may contain NaN: NaN until the
window is full or whenever the window contains a NaN. -/
def rollingMeanF (w : ℕ) (xs : List F) : List F :=
  (List.range xs.length).map (fun t =>
    if t + 1 < w then F.nan
    else F.fdiv (((xs.take (t + 1)).drop (t + 1 - w)).foldr F.add (F.val 0)) (F.val (w : ℚ)))

/-- rolling(window=w).min() on a NaN-free series. -/
def rollingMin (w : ℕ) (xs : List ℚ) : List F :=
  (List.range xs.length).map (fun t =>
    if t + 1 < w then F.nan
    else
      match (xs.take (t + 1)).drop (t + 1 - w) with
      | [] => F.nan
      | y :: ys => F.val (ys.foldl min y))

/-- rolling(window=w).max() on a NaN-free series. -/
def rollingMax (w : ℕ) (xs : List ℚ) : List F :=
  (List.range xs.length).map (fun t =>
    if t + 1 < w then F.nan
    else
      match (xs.take (t + 1)).drop (t + 1 - w) with
      | [] => F.nan
      | y :: ys => F.val (ys.foldl max y))

/-- rolling(window=w).std() on a NaN-free series: NaN until the window is
full, then the sample standard deviation of the window (via the abstract
square-root-dependent StatPrims.std). -/
def rollingStd (prims : StatPrims) (w : ℕ) (xs : List ℚ) : List F :=
  (List.range xs.length).map (fun t =>
    if t + 1 < w then F.nan
    else F.val (prims.std ((xs.take (t + 1)).drop (t + 1 - w))))

/-- delta.where(delta > 0, 0): positive one-step differences; index 0 has a
NaN difference, whose comparison is false, so the cell becomes 0. -/
def gains (xs : List ℚ) : List ℚ :=
  (List.range xs.length).map (fun t =>
    if t = 0 then 0
    else
      let d := xs.getD t 0 - xs.getD (t - 1) 0
      if d > 0 then d else 0)

/-- (-delta.where(delta < 0, 0)): magnitudes of negative one-step differences,
with the index-0 NaN difference becoming 0 as above. -/
def losses (xs : List ℚ) : List ℚ :=
  (List.range xs.length).map (fun t =>
    if t = 0 then 0
    else
      let d := xs.getD t 0 - xs.getD (t - 1) 0
      if d < 0 then -d else 0)

/-- calculate_rsi: rs = avgGain/avgLoss with IEEE division (x/0 = inf so the
rsi becomes 100, 0/0 = NaN), rsi = 100 - 100/(1 + rs). -/
def rsi (period : ℕ) (xs : List ℚ) : List F :=
  let gainAvg := rollingMean period (gains xs)
  let lossAvg := rollingMean period (losses xs)
  List.zipWith (fun g l =>
    let rs := F.fdiv g l
    F.sub (F.val 100) (F.fdiv (F.val 100) (F.add (F.val 1) rs))) gainAvg lossAvg

/-- calculate_momentum / data.diff(k): NaN for the first k cells. -/
def diffN (k : ℕ) (xs : List ℚ) : List F :=
  (List.range xs.length).map (fun t =>
    if t < k then F.nan
    else F.val (xs.getD t 0 - xs.getD (t - k) 0))

/-- calculate_atr true range: np.maximum propagates the NaN of the shifted
close, so the very first cell is NaN (unlike the adx_analyzer variant, where
pandas concat(...).max skips it). -/
def trIndF (bars : List ADX.Bar) : List F :=
  (List.range bars.length).map (fun t =>
    if t = 0 then F.nan
    else
      let b := bars.getD t default
      let pc := (bars.getD (t - 1) default).close
      F.val (max (b.high - b.low) (max |b.high - pc| |b.low - pc|)))

/-- The output frame of calculate_all_indicators: the raw bars plus every
indicator column the source adds, each column aligned with the bars. -/
structure IndFrame where
  bars : List ADX.Bar
  EMA_8 : List ℚ
  EMA_21 : List ℚ
  EMA_100 : List ℚ
  RSI : List F
  MACD : List ℚ
  MACD_signal : List ℚ
  MACD_hist : List ℚ
  BB_upper : List F
  BB_middle : List F
  BB_lower : List F
  ATR : List F
  MOM : List F
  STOCH_K : List F
  STOCH_D : List F

/-- TechnicalIndicators.calculate_all_indicators(df, params): computes every
column exactly as the source does and performs no NaN replacement whatsoever. -/
def calculateAllIndicators (prims : StatPrims) (p : StrategyParams)
    (bars : List ADX.Bar) : IndFrame :=
  let close := bars.map (fun b => b.close)
  let high := bars.map (fun b => b.high)
  let low := bars.map (fun b => b.low)
  let macd := List.zipWith (fun a b => a - b) (ema p.macd_fast close) (ema p.macd_slow close)
  let macdSig := ema p.macd_signal macd
  let middle := rollingMean p.bb_period close
  let stdDev := rollingStd prims p.bb_period close
  let kCol :=
    let ll := rollingMin 14 low
    let hh := rollingMax 14 high
    (List.range bars.length).map (fun t =>
      let c := close.getD t 0
      let llc := ll.getD t F.nan
      let hhc := hh.getD t F.nan
      F.fdiv (F.mul (F.val 100) (F.sub (F.val c) llc)) (F.sub hhc llc))
  { bars := bars
    EMA_8 := ema p.ema_short close
    EMA_21 := ema p.ema_medium close
    EMA_100 := ema p.ema_long close
    RSI := rsi p.rsi_period close
    MACD := macd
    MACD_signal := macdSig
    MACD_hist := List.zipWith (fun a b => a - b) macd macdSig
    BB_upper := List.zipWith (fun m s => F.add m (F.mul s (F.val p.bb_std))) middle stdDev
    BB_middle := middle
    BB_lower := List.zipWith (fun m s => F.sub m (F.mul s (F.val p.bb_std))) middle stdDev
    ATR := rollingMeanF p.atr_period (trIndF bars)
    MOM := diffN 10 close
    STOCH_K := kCol
    STOCH_D := rollingMeanF 3 kCol }

end Ind

/- ===== professional_ranging.py : ProfessionalRangingStrategy ===== -/

namespace Ind

/-- pandas Series.mean(): skips NaN; NaN when every cell is NaN. -/
def seriesMeanF (xs : List F) : F :=
  let obs := xs.filter (fun c => !c.isNan)
  if obs.length = 0 then F.nan
  else F.fdiv (obs.foldr F.add (F.val 0)) (F.val (obs.length : ℚ))

end Ind

namespace Ranging

/-- Largest element of a nonempty rational list (Series.max; the callers
guarantee nonemptiness). -/
def qListMax : List ℚ → ℚ
  | [] => 0
  | x :: xs => xs.foldl max x

/-- Smallest element of a nonempty rational list (Series.min). -/
def qListMin : List ℚ → ℚ
  | [] => 0
  | x :: xs => xs.foldl min x

/-- First list element satisfying the test, together with its index; models a
python for-loop over enumerate(...) that breaks at the first hit. -/
def scanLevels (pred : ℚ → Bool) : List ℚ → Option (ℕ × ℚ)
  | [] => none
  | x :: xs => if pred x then some (0, x) else (scanLevels pred xs).map (fun r => (r.1 + 1, r.2))

inductive VolRegime where
  | HIGH
  | NORMAL
  | LOW
deriving DecidableEq, Repr

/-- Constructor defaults of ProfessionalRangingStrategy; the orchestrator
builds the strategy with no arguments, so these are the live values. -/
def lookback : ℕ := 150

def grid_levels : ℕ := 10

def probability_threshold : ℚ := 13/20

def gold_key_levels : List ℚ := [1900, 1950, 2000, 2050, 2100]

def min_trade_interval : ℚ := 20

def max_consecutive_skip : ℕ := 5

/-- The dynamic grid returned by build_dynamic_grid. -/
structure Grid where
  buy_levels : List ℚ
  sell_levels : List ℚ
  grid_width : ℚ
  total_range : ℚ
  center : ℚ
  high : ℚ
  low : ℚ
  volatility : VolRegime
  atr : Option ℚ
deriving DecidableEq, Repr

/-- The mutable strategy state threaded through generate_professional_signal
(timestamps are rationals counting minutes). -/
structure RangingState where
  volatility_regime : Option VolRegime
  dynamic_grid : Option Grid
  last_trade_time : Option ℚ
  consecutive_skip : ℕ
deriving DecidableEq, Repr

def initialRangingState : RangingState where
  volatility_regime := none
  dynamic_grid := none
  last_trade_time := none
  consecutive_skip := 0

/-- detect_volatility_regime: NORMAL below 60 bars, otherwise classified by
the ratio of the 20-bar to the 150-bar mean ATR (pandas mean skips NaN; a NaN
ratio compares false on both sides and so also yields NORMAL). -/
def detectVolatilityRegime (df : Ind.IndFrame) : VolRegime :=
  if df.bars.length < 60 then VolRegime.NORMAL
  else
    let recent := Ind.seriesMeanF (Ind.pyTailF 20 df.ATR)
    let historical := Ind.seriesMeanF (Ind.pyTailF lookback df.ATR)
    let r := F.fdiv recent historical
    if F.fgt r (F.val (13/10)) then VolRegime.HIGH
    else if F.flt r (F.val (7/10)) then VolRegime.LOW
    else VolRegime.NORMAL

/-- calculate_mean_reversion_signal: z-score of the last close against the
last 80 closes; the standard deviation comes from the abstract StatPrims (its
zero case follows IEEE division). -/
def calcMeanReversion (prims : StatPrims) (df : Ind.IndFrame) : ℤ × F × F :=
  if df.bars.length < 80 then (0, F.val 0, F.val 0)
  else
    let closes := df.bars.map (fun b => b.close)
    let close80 := Ind.pyTail 80 closes
    let sma := Ind.listMean close80
    let sd := prims.std close80
    let cur := closes.getLast?.getD 0
    let z := F.qdiv (cur - sma) sd
    if F.flt z (F.val (-2)) then
      (1, F.pymin (F.fdiv (F.fabs z) (F.val (7/2))) (F.val 1), z)
    else if F.fgt z (F.val 2) then
      (-1, F.pymin (F.fdiv (F.fabs z) (F.val (7/2))) (F.val 1), z)
    else if F.flt z (F.val (-3/2)) then
      (1, F.mul (F.pymin (F.fdiv (F.fabs z) (F.val 3)) (F.val (7/10))) (F.val (1/2)), z)
    else if F.fgt z (F.val (3/2)) then
      (-1, F.mul (F.pymin (F.fdiv (F.fabs z) (F.val 3)) (F.val (7/10))) (F.val (1/2)), z)
    else (0, F.val 0, z)

/-- close.pct_change() with the NaN cells dropped, as fed to autocorr; IEEE
division keeps signed infinities when a previous close is 0. -/
def pctChangeDropna (xs : List ℚ) : List F :=
  (((List.range xs.length).map (fun t =>
    if t = 0 then F.nan
    else F.qdiv (xs.getD t 0 - xs.getD (t - 1) 0) (xs.getD (t - 1) 0))).filter
    (fun c => !c.isNan))

/-- calculate_statistical_reversal: lag-1 autocorrelation (abstract, it needs
real square roots) of the pct returns of the last 40 closes; valid when it is
below -0.12. -/
def calcStatReversal (prims : StatPrims) (df : Ind.IndFrame) : F × Bool :=
  if df.bars.length < 40 then (F.val 0, false)
  else
    let closes := df.bars.map (fun b => b.close)
    let rets := pctChangeDropna (Ind.pyTail 40 closes)
    let ac := prims.autocorr rets
    if F.flt ac (F.val (-3/25)) then (F.fabs ac, true) else (F.val 0, false)

/-- is_near_key_level: the first configured key level within 5.0 of the
price, if any. -/
def isNearKeyLevel (price : ℚ) : Option ℚ :=
  gold_key_levels.find? (fun lv => |price - lv| < 5)

/-- Key-level snapping of one raw buy level inside the grid loop. -/
def snapBuy (width raw : ℚ) : ℚ :=
  match isNearKeyLevel raw with
  | some k => k - width * (3/10)
  | none => raw

/-- Key-level snapping of one raw sell level inside the grid loop. -/
def snapSell (width raw : ℚ) : ℚ :=
  match isNearKeyLevel raw with
  | some k => k + width * (3/10)
  | none => raw

/-- The candidate buy levels of the loop: center - width*(i+1), snapped away
from key levels, and kept only when not below recent_low * 0.97. -/
def buyCandidates (count : ℕ) (center width low : ℚ) : List ℚ :=
  ((List.range count).map (fun (i : ℕ) => snapBuy width (center - width * (i + 1)))).filter
    (fun bp => bp ≥ low * (97/100))

/-- The candidate sell levels of the loop, kept only when not above
recent_high * 1.03. -/
def sellCandidates (count : ℕ) (center width high : ℚ) : List ℚ :=
  ((List.range count).map (fun (i : ℕ) => snapSell width (center + width * (i + 1)))).filter
    (fun sp => sp ≤ high * (103/100))

/-- The (total_range, grid_count, grid_width) computation of
build_dynamic_grid, split out so the grid theorems can speak about it.  The
last ATR cell is NaN-aware: a NaN ATR makes every max/comparison against it
false, which the Option branches reproduce (the indicator pipeline cannot put
an infinity in the ATR column, a rolling mean of finite true ranges).  When
the clamped width is zero the source would raise on int(x/0); that needs a
zero ATR, and the model returns grid_count 0 there, which invalidates the
grid just as no level would. -/
def gridGeometry (priceRange : ℚ) (aOpt : Option ℚ) (vol : VolRegime) : ℚ × ℕ × ℚ :=
  let totalRange :=
    match aOpt with
    | some a => max (max (priceRange * (4/5)) (a * 6)) (a * 4)
    | none => priceRange * (4/5)
  let gc0 : ℕ :=
    match vol with
    | VolRegime.HIGH => (pyInt ((grid_levels : ℚ) * (9/10))).toNat
    | VolRegime.LOW => (pyInt ((grid_levels : ℚ) * (4/5))).toNat
    | VolRegime.NORMAL => grid_levels
  let gc1 : ℕ := max 6 (min gc0 12)
  let gw0 : ℚ := totalRange / (gc1 : ℚ)
  match aOpt with
  | some a =>
    if gw0 < a * (2/5) then
      let w := a * (2/5)
      (totalRange, (if w = 0 then 0 else (pyInt (totalRange / w)).toNat), w)
    else if gw0 > a * (3/2) then
      let w := a * (3/2)
      (totalRange, (if w = 0 then 0 else (pyInt (totalRange / w)).toNat), w)
    else (totalRange, gc1, gw0)
  | none => (totalRange, gc1, gw0)

/-- recent_high: data[high].tail(40).max(). -/
def recentHighOf (df : Ind.IndFrame) : ℚ :=
  qListMax (Ind.pyTail 40 (df.bars.map (fun b => b.high)))

/-- recent_low: data[low].tail(40).min(). -/
def recentLowOf (df : Ind.IndFrame) : ℚ :=
  qListMin (Ind.pyTail 40 (df.bars.map (fun b => b.low)))

/-- current_price: data[close].iloc[-1]. -/
def currentPriceOf (df : Ind.IndFrame) : ℚ :=
  (df.bars.map (fun b => b.close)).getLast?.getD 0

/-- The last ATR cell as a rational, none when it is NaN. -/
def aOptOf (df : Ind.IndFrame) : Option ℚ :=
  match df.ATR.getLast?.getD F.nan with
  | F.val q => some q
  | _ => none

/-- The (total_range, grid_count, grid_width) of build_dynamic_grid on a
frame, with the default center. -/
def geometryOf (df : Ind.IndFrame) : ℚ × ℕ × ℚ :=
  gridGeometry (recentHighOf df - recentLowOf df) (aOptOf df) (detectVolatilityRegime df)

/-- build_dynamic_grid(data, center_price=None). -/
def buildDynamicGrid (df : Ind.IndFrame) (centerArg : Option ℚ) : Option Grid :=
  if df.bars.length < 40 then none
  else
    let recentHigh := recentHighOf df
    let recentLow := recentLowOf df
    let center := centerArg.getD (currentPriceOf df)
    let aOpt := aOptOf df
    let vol := detectVolatilityRegime df
    let (totalRange, gridCount, gridWidth) :=
      gridGeometry (recentHigh - recentLow) aOpt vol
    let buys := buyCandidates gridCount center gridWidth recentLow
    let sells := sellCandidates gridCount center gridWidth recentHigh
    if buys.length < 4 ∨ sells.length < 4 then none
    else some
      { buy_levels := pySortDesc buys
        sell_levels := pySortAsc sells
        grid_width := gridWidth
        total_range := totalRange
        center := center
        high := recentHigh
        low := recentLow
        volatility := vol
        atr := aOpt }

/-- calculate_grid_trading_signal: rebuilds the grid, then looks for the first
touched buy level and the first touched sell level (the sell loop runs even
after a buy hit and overwrites the shared confidence variable, exactly as the
source does); a miss on both sides bumps consecutive_skip. -/
def calcGridTradingSignal (df : Ind.IndFrame) (st : RangingState) :
    (ℤ × F × Option Grid) × RangingState :=
  match buildDynamicGrid df none with
  | none =>
    ((0, F.val 0, none),
     { st with dynamic_grid := none, consecutive_skip := st.consecutive_skip + 1 })
  | some g =>
    let st0 := { st with dynamic_grid := some g }
    let closes := df.bars.map (fun b => b.close)
    let currentPrice := closes.getLast?.getD 0
    let step := fun (positive : Bool) (levels : List ℚ)
        (acc : ℤ × F × ℕ) =>
      let (sig, conf, skip) := acc
      match scanLevels
        (fun lv => if positive then currentPrice ≤ lv * (251/250)
                   else currentPrice ≥ lv * (249/250)) levels with
      | none => (sig, conf, skip)
      | some (i, lv) =>
        let distance := if positive then F.qdiv (lv - currentPrice) g.grid_width
                        else F.qdiv (currentPrice - lv) g.grid_width
        let c0 := F.pymax (F.val 0) (F.sub (F.val 1) distance)
        let depth : ℚ := (i : ℚ) / (levels.length : ℚ)
        let c1 := F.add (F.mul c0 (F.val (3/5))) (F.val (depth * (2/5)))
        let minConf : ℚ := if skip ≥ max_consecutive_skip then 9/20 else 11/20
        if F.fge c1 (F.val minConf) then
          ((if positive then 1 else -1), c1, 0)
        else (sig, c1, skip)
    let acc1 := step true g.buy_levels (0, F.val 0, st0.consecutive_skip)
    let acc2 := step false g.sell_levels acc1
    let (sig, conf, skip) := acc2
    let skipFinal := if sig = 0 then skip + 1 else skip
    ((sig, conf, some g), { st0 with consecutive_skip := skipFinal })

/-- calculate_edge_probability(data, signal, zscore, reversal_score); reads
self.volatility_regime and self.consecutive_skip, passed explicitly. -/
def calcEdgeProbability (vol : Option VolRegime) (skip : ℕ) (sig : ℤ)
    (z revScore : F) : F × F :=
  let zEdge :=
    if sig = 1 ∧ F.flt z (F.val (-9/5)) then
      F.pymin (F.fdiv (F.fabs z) (F.val 4)) (F.val (7/20))
    else if sig = -1 ∧ F.fgt z (F.val (9/5)) then
      F.pymin (F.fdiv (F.fabs z) (F.val 4)) (F.val (7/20))
    else F.val 0
  let acEdge := F.mul revScore (F.val (1/4))
  let volEdge : ℚ :=
    match vol with
    | some VolRegime.NORMAL => 1/4
    | some VolRegime.LOW => 3/20
    | _ => 0
  let gridEdge : ℚ := 1/4
  let skipBonus : ℚ := min ((skip : ℚ) * (1/20)) (3/20)
  let strength := F.add (F.add (F.add zEdge acEdge) (F.val volEdge)) (F.val gridEdge)
  let total := F.pymin (F.add (F.add strength (F.val skipBonus)) (F.val (7/20))) (F.val 1)
  (total, strength)

/-- check_trade_cooldown at wall-clock time now (minutes). -/
def checkTradeCooldown (st : RangingState) (now : ℚ) : Bool :=
  match st.last_trade_time with
  | none => true
  | some t => !(now - t < min_trade_interval)

inductive DetailsStatus where
  | insufficientData
  | cooldown
  | full
deriving DecidableEq, Repr

/-- The details payload of generate_professional_signal, restricted to the
fields the callers read (grid_info feeds the executor; conditions_met and the
component values are reporting). -/
structure ProDetails where
  status : DetailsStatus
  grid_info : Option Grid
  conditions_met : ℕ
deriving DecidableEq, Repr

/-- generate_professional_signal(df) at wall-clock time now (minutes) and
hour-of-day hour, threading the mutable strategy state. -/
def generateProfessionalSignal (prims : StatPrims) (st : RangingState)
    (now : ℚ) (hour : ℕ) (df : Ind.IndFrame) : (ℤ × F × ProDetails) × RangingState :=
  if df.bars.length < 80 then
    ((0, F.val 0, ⟨DetailsStatus.insufficientData, none, 0⟩), st)
  else if !checkTradeCooldown st now then
    ((0, F.val 0, ⟨DetailsStatus.cooldown, none, 0⟩), st)
  else
    let vol := detectVolatilityRegime df
    let st1 := { st with volatility_regime := some vol }
    let (mrSig, mrStrength, z) := calcMeanReversion prims df
    let (revScore, isReverting) := calcStatReversal prims df
    let ((gridSig, gridConf, gridInfo), st2) := calcGridTradingSignal df st1
    let (winProb, _edgeStrength) :=
      if gridSig ≠ 0 then calcEdgeProbability st2.volatility_regime st2.consecutive_skip gridSig z revScore
      else (F.val 0, F.val 0)
    let c1 : Bool := gridSig ≠ 0 ∧ F.fgt gridConf (F.val (1/2))
    let c2 : Bool := mrSig = gridSig ∧ mrSig ≠ 0 ∧ F.fgt mrStrength (F.val (1/4))
    let c3 : Bool := F.fgt winProb (F.val probability_threshold)
    let c4 : Bool := isReverting ∧ F.fgt revScore (F.val (3/20))
    let c5 : Bool := !(13 ≤ hour ∧ hour ≤ 19)
    let cm : ℕ := c1.toNat + c2.toNat + c3.toNat + c4.toNat + c5.toNat
    let (sig, conf) : ℤ × F :=
      if 2 ≤ cm then
        if 3 ≤ st2.consecutive_skip ∧ 1 ≤ cm then
          (gridSig, F.pymax gridConf (F.val (1/2)))
        else
          (gridSig,
           F.add (F.add (F.mul gridConf (F.val (2/5))) (F.mul mrStrength (F.val (3/10))))
             (F.mul winProb (F.val (3/10))))
      else (0, F.val 0)
    let st3 := if sig ≠ 0 then { st2 with last_trade_time := some now } else st2
    ((sig, conf, ⟨DetailsStatus.full, gridInfo, cm⟩), st3)

end Ranging

/- ===== strategies.py : TradingStrategies ===== -/

namespace Strat

/-- One row of the indicator frame as read by the four strategies.  The field
names are the column names the source reads: trend_following_strategy reads
EMA_20 / EMA_50 / EMA_200 even though calculate_all_indicators produces
EMA_8 / EMA_21 / EMA_100, so on the real pipeline these lookups raise
KeyError; the voting engine is modelled here on a frame that does carry the
columns it reads. -/
structure SRow where
  close : F
  EMA_20 : F
  EMA_50 : F
  EMA_200 : F
  RSI : F
  MACD_hist : F
  BB_upper : F
  BB_lower : F
  ATR : F
  MOM : F
  STOCH_K : F
  STOCH_D : F
deriving DecidableEq, Repr

inductive Vote where
  | buy
  | sell
  | neutral
deriving DecidableEq, Repr

def voteOf (s : ℤ) : Vote :=
  if s = 1 then Vote.buy else if s = -1 then Vote.sell else Vote.neutral

/-- The four votes keyed by strategy name. -/
structure SignalVotes where
  trend_following : Vote
  mean_reversion : Vote
  breakout : Vote
  momentum : Vote
deriving DecidableEq, Repr

/-- trend_following_strategy; none models the IndexError on an empty frame. -/
def trendFollowing (df : List SRow) (p : StrategyParams) : Option ℤ :=
  match df.getLast? with
  | none => none
  | some latest =>
    if F.fgt latest.EMA_20 latest.EMA_50 && F.fgt latest.EMA_50 latest.EMA_200 &&
       F.flt latest.RSI (F.val p.rsi_overbought) && F.fgt latest.MACD_hist (F.val 0) then
      some 1
    else if F.flt latest.EMA_20 latest.EMA_50 && F.flt latest.EMA_50 latest.EMA_200 &&
       F.fgt latest.RSI (F.val p.rsi_oversold) && F.flt latest.MACD_hist (F.val 0) then
      some (-1)
    else some 0

/-- mean_reversion_strategy. -/
def meanReversion (df : List SRow) (p : StrategyParams) : Option ℤ :=
  match df.getLast? with
  | none => none
  | some latest =>
    let bbPos := F.fdiv (F.sub latest.close latest.BB_lower)
      (F.sub latest.BB_upper latest.BB_lower)
    if F.flt latest.RSI (F.val p.rsi_oversold) && F.flt bbPos (F.val (1/5)) then some 1
    else if F.fgt latest.RSI (F.val p.rsi_overbought) && F.fgt bbPos (F.val (4/5)) then
      some (-1)
    else some 0

/-- breakout_strategy; needs at least two rows (iloc[-2]). -/
def breakout (df : List SRow) (_p : StrategyParams) : Option ℤ :=
  match df.reverse with
  | latest :: prev :: _ =>
    let atrMean := Ind.seriesMeanF (Ind.pyTailF 20 (df.map (fun r => r.ATR)))
    if F.fgt latest.close latest.BB_upper && F.fle prev.close prev.BB_upper &&
       F.fgt latest.ATR atrMean then some 1
    else if F.flt latest.close latest.BB_lower && F.fge prev.close prev.BB_lower &&
       F.fgt latest.ATR atrMean then some (-1)
    else some 0
  | _ => none

/-- momentum_strategy. -/
def momentum (df : List SRow) (_p : StrategyParams) : Option ℤ :=
  match df.getLast? with
  | none => none
  | some latest =>
    if F.fgt latest.MOM (F.val 0) && F.fgt latest.STOCH_K latest.STOCH_D &&
       F.flt latest.STOCH_K (F.val 80) then some 1
    else if F.flt latest.MOM (F.val 0) && F.flt latest.STOCH_K latest.STOCH_D &&
       F.fgt latest.STOCH_K (F.val 20) then some (-1)
    else some 0

/-- generate_combined_signal: sums the four votes and thresholds the total.
It never reads the enable_vol_filter / vol_period / vol_threshold parameters:
no volatility sleep filter exists in the voting engine. -/
def generateCombinedSignal (df : List SRow) (p : StrategyParams) :
    Option (ℤ × SignalVotes) := do
  let s1 ← trendFollowing df p
  let s2 ← meanReversion df p
  let s3 ← breakout df p
  let s4 ← momentum df p
  let total := s1 + s2 + s3 + s4
  let votes : SignalVotes := ⟨voteOf s1, voteOf s2, voteOf s3, voteOf s4⟩
  if total ≥ p.signal_threshold_buy then pure (1, votes)
  else if total ≤ p.signal_threshold_sell then pure (-1, votes)
  else pure (0, votes)

/-- The low-volatility sleep condition as the specification words it (current
ATR below the rolling mean ATR over vol_period bars times vol_threshold); the
source never evaluates any such condition, which claim C8 probes.  This
definition follows the specification text, not the source. -/
def specSleepCondition (p : StrategyParams) (df : List SRow) : Bool :=
  let atrs := df.map (fun r => r.ATR)
  F.flt (atrs.getLast?.getD F.nan)
    (F.mul (Ind.seriesMeanF (Ind.pyTailF p.vol_period atrs)) (F.val p.vol_threshold))

end Strat

/- ===== professional_executor.py : ProfessionalExecutor, GridPositionTracker ===== -/

namespace Exec

inductive GridDirection where
  | LONG
  | SHORT
deriving DecidableEq, Repr

/-- grid_id strings have the form LONG_i / SHORT_i; the pair (direction, i) is
the same data. -/
def GridId := GridDirection × ℕ
deriving instance DecidableEq, Repr for GridId

/-- One entry of GridPositionTracker.active_grids (open_time, a wall-clock
stamp, and the close bookkeeping fields are reporting only and elided). -/
structure GridPosData where
  level : ℕ
  entry_price : ℚ
  lot_size : F
  direction : GridDirection
deriving DecidableEq, Repr

/-- GridPositionTracker state; max_grids_per_side is fixed to 4 in __init__. -/
structure GridTracker where
  active_grids : List (GridId × GridPosData)
deriving DecidableEq, Repr

def max_grids_per_side : ℕ := 4

def emptyTracker : GridTracker := ⟨[]⟩

/-- GridPositionTracker.get_direction_count. -/
def getDirectionCount (t : GridTracker) (d : GridDirection) : ℕ :=
  (t.active_grids.filter (fun e => e.2.direction = d)).length

/-- grid_id in self.grid_tracker.active_grids. -/
def hasGrid (t : GridTracker) (g : GridId) : Bool :=
  t.active_grids.any (fun e => e.1 = g)

/-- ProfessionalExecutor mutable state (trade_history and grid_trade_count
are reporting only and elided). -/
structure ExecutorState where
  initial_capital : ℚ
  balance : ℚ
  consecutive_losses : ℕ
  consecutive_wins : ℕ
  grid_tracker : GridTracker
deriving DecidableEq, Repr

def initialExecutorState (capital : ℚ) : ExecutorState where
  initial_capital := capital
  balance := capital
  consecutive_losses := 0
  consecutive_wins := 0
  grid_tracker := emptyTracker

inductive Action where
  | HOLD
  | BUY_GRID
  | SELL_GRID
deriving DecidableEq, Repr

/-- The details dictionary returned on an accepted grid entry. -/
structure ManageDetails where
  current_level : ℕ
  lot_multiplier : ℚ
  base_lot : ℚ
  loss_reduction : ℚ
  win_bonus : ℚ
  consecutive_losses : ℕ
  consecutive_wins : ℕ
  grid_id : GridId
  direction : GridDirection
deriving DecidableEq, Repr

/-- The consecutive-loss factor inside manage_grid_positions. -/
def lossReduction (losses : ℕ) : ℚ :=
  if losses = 1 then 17/20
  else if losses = 2 then 7/10
  else if losses ≥ 3 then 11/20
  else 1

/-- The consecutive-win factor inside manage_grid_positions. -/
def winBonus (wins : ℕ) : ℚ :=
  if wins = 1 then 21/20
  else if wins = 2 then 11/10
  else if wins ≥ 3 then 23/20
  else 1

/-- python round(x, 3) lifted to the float model. -/
def roundF3 : F → F
  | F.val q => F.val (pyRound3 q)
  | x => x

/-- The level scan of manage_grid_positions: on a buy signal the first buy
level with current_price <= level * 1.010, on a sell signal the first sell
level with current_price >= level * 0.990, with the matched direction. -/
def gridHit (g : Ranging.Grid) (currentPrice : ℚ) (signal : ℤ) :
    Option (ℕ × GridDirection) :=
  if signal = 1 then
    (Ranging.scanLevels (fun lv => currentPrice ≤ lv * (101/100)) g.buy_levels).map
      (fun r => (r.1, GridDirection.LONG))
  else if signal = -1 then
    (Ranging.scanLevels (fun lv => currentPrice ≥ lv * (99/100)) g.sell_levels).map
      (fun r => (r.1, GridDirection.SHORT))
  else none

/-- ProfessionalExecutor.manage_grid_positions(current_price, grid_info,
signal, confidence).  The widened touch bands are 1.010 on the buy side and
0.990 on the sell side; a hit on an already-open grid_id or a full direction
(4 layers) returns HOLD; otherwise the lot is
base_lot * (0.9 + 0.35*i) * confidence * lossReduction * winBonus, rounded to
three decimals and clamped between 0.005 and balance/4000. -/
def manageGridPositions (st : ExecutorState) (currentPrice : ℚ)
    (gridInfo : Option Ranging.Grid) (signal : ℤ) (confidence : F) :
    Action × F × Option ManageDetails :=
  match gridInfo with
  | none => (Action.HOLD, F.val 0, none)
  | some g =>
    match gridHit g currentPrice signal with
    | none => (Action.HOLD, F.val 0, none)
    | some (i, dir) =>
      let gid : GridId := (dir, i)
      if hasGrid st.grid_tracker gid then (Action.HOLD, F.val 0, none)
      else if getDirectionCount st.grid_tracker dir ≥ max_grids_per_side then
        (Action.HOLD, F.val 0, none)
      else
        let baseLot : ℚ := 1/100
        let lotMult : ℚ := 9/10 + (i : ℚ) * (7/20)
        let lossRed := lossReduction st.consecutive_losses
        let winBon := winBonus st.consecutive_wins
        let lot0 := F.mul (F.mul (F.mul (F.mul (F.val baseLot) (F.val lotMult)) confidence)
          (F.val lossRed)) (F.val winBon)
        let lot1 := roundF3 lot0
        let minLot : ℚ := 1/200
        let maxLot : ℚ := st.balance / 4000
        let lot := F.pymax (F.val minLot) (F.pymin lot1 (F.val maxLot))
        ((if dir = GridDirection.LONG then Action.BUY_GRID else Action.SELL_GRID), lot,
         some ⟨i, lotMult, baseLot, lossRed, winBon, st.consecutive_losses,
           st.consecutive_wins, gid, dir⟩)

/-- ProfessionalExecutor.update_consecutive_counts(pnl). -/
def updateConsecutiveCounts (st : ExecutorState) (pnl : ℚ) : ExecutorState :=
  if pnl > 0 then
    { st with consecutive_wins := st.consecutive_wins + 1, consecutive_losses := 0 }
  else if pnl < 0 then
    { st with consecutive_losses := st.consecutive_losses + 1, consecutive_wins := 0 }
  else
    { st with consecutive_wins := 0, consecutive_losses := 0 }

/-- The lot-size formula exactly as claim C7 words it: base lot times
(1.0 + 0.35*i) times confidence and the streak factors, clamped to
[minLot, balance/4000] with no rounding step.  This definition follows the
claim text, not the source, and is compared against manageGridPositions. -/
def specLotFormula (i : ℕ) (confidence : ℚ) (losses wins : ℕ) (balance : ℚ) : ℚ :=
  max (1/200)
    (min ((1/100) * (1 + (7/20) * (i : ℚ)) * confidence * lossReduction losses * winBonus wins)
      (balance / 4000))

end Exec

/- ===== main.py : AdaptiveStrategyManager and TradingBot._backtest_logic ===== -/

namespace Main

inductive MarketType where
  | RANGING
  | TRENDING
deriving DecidableEq, Repr

/-- The dictionary analyze_market returns (its df entry is the augmented frame
and is not read by the callers modelled here). -/
structure MarketInfo where
  market_type : MarketType
  direction_signal : ℤ
  adx : F
  pos_di : F
  neg_di : F
deriving DecidableEq, Repr

/-- AdaptiveStrategyManager.analyze_market(df): the safe default below 80
bars; otherwise ADX via MarketAnalysis.analyze with NaN guarded to 0, the
threshold 20 classification, and the 1-point direction tolerance. -/
def analyzeMarket (df : Ind.IndFrame) : MarketInfo :=
  if df.bars.length < 80 then
    ⟨MarketType.RANGING, 0, F.val 0, F.val 0, F.val 0⟩
  else
    let cols := ADX.analyze df.bars
    let guard0 := fun (x : F) => if x.isNan then F.val 0 else x
    let adxv := guard0 (cols.1.getLast?.getD F.nan)
    let pdi := guard0 (cols.2.1.getLast?.getD F.nan)
    let ndi := guard0 (cols.2.2.getLast?.getD F.nan)
    let marketType :=
      if F.flt adxv (F.val 20) then MarketType.RANGING else MarketType.TRENDING
    let dirSignal : ℤ :=
      if F.fgt pdi (F.add ndi (F.val 1)) then 1
      else if F.fgt ndi (F.add pdi (F.val 1)) then -1
      else 0
    ⟨marketType, dirSignal, adxv, pdi, ndi⟩

/-- The mutable state owned by one AdaptiveStrategyManager. -/
structure ManagerState where
  ranging : Ranging.RangingState
  executor : Exec.ExecutorState
deriving DecidableEq, Repr

def initialManagerState : ManagerState where
  ranging := Ranging.initialRangingState
  executor := Exec.initialExecutorState 100

/-- The unified decision record generate_signal returns (its details dict,
restricted to the entries the callers read). -/
structure SignalOutput where
  signal : ℤ
  confidence : F
  market_type : MarketType
  grid_info : Option Ranging.Grid
  grid_action : Exec.Action
  grid_lot_size : F
  market_info : MarketInfo
deriving DecidableEq, Repr

/-- AdaptiveStrategyManager.generate_signal(df) at wall-clock time now
(minutes) and hour-of-day hour.  On the RANGING side it runs the grid
strategy, then evaluates df[close].iloc[-1] for the executor call, which
raises IndexError on an empty frame.  On the TRENDING side it calls
generate_combined_signal, which reads the columns EMA_20 / EMA_50 / EMA_200
that calculate_all_indicators does not produce (it produces EMA_8 / EMA_21 /
EMA_100), so that branch raises KeyError on the pipeline frame. -/
def generateSignal (prims : StatPrims) (st : ManagerState) (now : ℚ) (hour : ℕ)
    (df : Ind.IndFrame) : Except String (SignalOutput × ManagerState) :=
  let mi := analyzeMarket df
  match mi.market_type with
  | MarketType.RANGING =>
    let ((sig, conf, details), rst) :=
      Ranging.generateProfessionalSignal prims st.ranging now hour df
    match (df.bars.map (fun b => b.close)).getLast? with
    | none => Except.error "IndexError: single positional indexer is out-of-bounds"
    | some price =>
      let (action, lot, _) :=
        Exec.manageGridPositions st.executor price details.grid_info sig conf
      Except.ok
        ({ signal := sig, confidence := conf, market_type := MarketType.RANGING,
           grid_info := details.grid_info, grid_action := action,
           grid_lot_size := lot, market_info := mi },
         { st with ranging := rst })
  | MarketType.TRENDING =>
    Except.error "KeyError: EMA_20"

/-- The stops record calculate_stops returns. -/
structure StopsResult where
  stop_loss : ℚ
  take_profit : ℚ
  sl_distance : ℚ
  tp_distance : ℚ
deriving DecidableEq, Repr

/-- AdaptiveStrategyManager.calculate_stops(signal, entry_price, df,
market_type, grid_info): ATR falls back to 10 when the cell is missing or
NaN. -/
def calculateStops (signal : ℤ) (entryPrice : ℚ) (df : Ind.IndFrame)
    (marketType : MarketType) (gridInfo : Option Ranging.Grid) : StopsResult :=
  let atr : ℚ :=
    match df.ATR.getLast?.getD F.nan with
    | F.val q => q
    | _ => 10
  let (slDist, tpDist) :=
    match marketType with
    | MarketType.RANGING =>
      match gridInfo with
      | some g => (atr * (3/2), g.grid_width * (5/2))
      | none => (atr * (3/2), atr * (5/2))
    | MarketType.TRENDING =>
      (atr * STRATEGY_PARAMS.atr_multiplier_sl, atr * STRATEGY_PARAMS.atr_multiplier_tp)
  if signal = 1 then ⟨entryPrice - slDist, entryPrice + tpDist, slDist, tpDist⟩
  else ⟨entryPrice + slDist, entryPrice - tpDist, slDist, tpDist⟩

/-- The fixed spread of _backtest_logic: SPREAD = 0.3. -/
def SPREAD : ℚ := 3/10

/-- _backtest_logic inner calculate_trade_profit(direction, entry_price,
exit_price, lot_size): long fills at entry + spread/2 and exit - spread/2,
mirrored for shorts; profit is the fill difference times lot times 100.
Returns (profit, actual_entry, actual_exit). -/
def calculateTradeProfit (direction : ℤ) (entryPrice exitPrice lotSize : ℚ) :
    ℚ × ℚ × ℚ :=
  if direction = 1 then
    let actualEntry := entryPrice + SPREAD / 2
    let actualExit := exitPrice - SPREAD / 2
    ((actualExit - actualEntry) * lotSize * 100, actualEntry, actualExit)
  else
    let actualEntry := entryPrice - SPREAD / 2
    let actualExit := exitPrice + SPREAD / 2
    ((actualEntry - actualExit) * lotSize * 100, actualEntry, actualExit)

/-- One simulated position of _backtest_logic (the adjustment log is kept as
a count; its contents are reporting only). -/
structure BTPos where
  direction : ℤ
  entry : ℚ
  lot : ℚ
  sl : ℚ
  initial_sl : ℚ
  tp : ℚ
  be_triggered : Bool
  highest_price : Option ℚ
  lowest_price : Option ℚ
  adjustments : ℕ
deriving DecidableEq, Repr

/-- The favorable (unrealized-profit) distance of a position at a price, as
the breakeven block of _backtest_logic computes it per direction. -/
def favorableDistance (pos : BTPos) (price : ℚ) : ℚ :=
  if pos.direction = 1 then price - pos.entry else pos.entry - price

/-- The per-bar stop-management step of _backtest_logic for one open
position (lines 486-545): the breakeven block (move the stop to the entry
and set the one-way flag when the favorable distance reaches
break_even_trigger * ATR and the flag is unset), then the trailing block,
which runs only when cfg.trailing_stop is set (it is False in RISK_CONFIG)
and only ever tightens the stop.  The none branch of the best-price match
models the key-absent case of the source; the backtest always seeds a long
with highest_price = entry and a short with lowest_price = entry. -/
def updatePosBar (cfg : RiskConfig) (price atr : ℚ) (pos : BTPos) : BTPos :=
  let shouldBE := favorableDistance pos price ≥ cfg.break_even_trigger * atr
  let pos1 :=
    if shouldBE ∧ pos.be_triggered = false then
      { pos with
        sl := pos.entry
        be_triggered := true
        adjustments := pos.adjustments + 1 }
    else pos
  if cfg.trailing_stop then
    let minProfit := cfg.min_profit_move_sl * atr
    if pos1.direction = 1 then
      if price - pos1.entry > minProfit then
        let hp := match pos1.highest_price with
          | none => price
          | some h => max h price
        let pos2 := { pos1 with highest_price := some hp }
        if hp - pos2.entry > minProfit then
          let newSl := hp - (6/5) * atr
          if newSl > pos2.sl then
            { pos2 with sl := newSl, adjustments := pos2.adjustments + 1 }
          else pos2
        else pos2
      else pos1
    else
      if pos1.entry - price > minProfit then
        let lp := match pos1.lowest_price with
          | none => price
          | some l => min l price
        let pos2 := { pos1 with lowest_price := some lp }
        if pos2.entry - lp > minProfit then
          let newSl := lp + (6/5) * atr
          if newSl < pos2.sl then
            { pos2 with sl := newSl, adjustments := pos2.adjustments + 1 }
          else pos2
        else pos2
      else pos1
  else pos1

/-- The stop-management step folded over the (close, ATR) pairs of the bars a
position lives through. -/
def runPosBars (cfg : RiskConfig) (bars : List (ℚ × ℚ)) (pos : BTPos) : BTPos :=
  bars.foldl (fun p pa => updatePosBar cfg pa.1 pa.2 p) pos

end Main

/- ===== Concrete inputs used by the counterexamples and witnesses ===== -/

namespace Exec

/-- The direction a nonzero signal trades in. -/
def dirOfSignal (sig : ℤ) : GridDirection :=
  if sig = 1 then GridDirection.LONG else GridDirection.SHORT

end Exec

/-- C2 counterexample input: two equal-length high/low/close sequences whose
first close (0) lies above its own high (-100).  The second bar then has a
+DM of 100 against a zero smoothed true range. -/
def c2Bars : List ADX.Bar := [⟨-100, -100, 0⟩, ⟨0, 0, 0⟩]

/-- A single well-formed bar, used to witness the amended C2 statement. -/
def c2WitBars : List ADX.Bar := [⟨2, 1, 3/2⟩]

/-- C5 counterexample frame: 40 identical bars around the key level 2000 with
ATR 2 (recent high 2012.5, recent low 1987.5).  The indicator columns the
grid builder does not read are left empty. -/
def c5Frame : Ind.IndFrame where
  bars := List.replicate 40 ⟨4025/2, 3975/2, 2000⟩
  EMA_8 := []
  EMA_21 := []
  EMA_100 := []
  RSI := []
  MACD := []
  MACD_signal := []
  MACD_hist := []
  BB_upper := []
  BB_middle := []
  BB_lower := []
  ATR := List.replicate 40 (F.val 2)
  MOM := []
  STOCH_K := []
  STOCH_D := []

/-- The grid build_dynamic_grid returns on c5Frame: the raw buy levels 1998
and 1996 both lie within 5 of the key level 2000 and both snap to
2000 - 0.3*2 = 1999.4, so the sorted buy ladder starts with two equal
levels; same on the sell side with 2000.6. -/
def c5Grid : Ranging.Grid where
  buy_levels := [9997/5, 9997/5, 1994, 1992, 1990, 1988, 1986, 1984, 1982, 1980]
  sell_levels := [10003/5, 10003/5, 2006, 2008, 2010, 2012, 2014, 2016, 2018, 2020]
  grid_width := 2
  total_range := 20
  center := 2000
  high := 4025/2
  low := 3975/2
  volatility := Ranging.VolRegime.NORMAL
  atr := some 2

/-- C5 witness frame: like c5Frame but centered at 3000, far from every
configured key level, so no level snaps and none is clipped. -/
def c5WitFrame : Ind.IndFrame where
  bars := List.replicate 40 ⟨6025/2, 5975/2, 3000⟩
  EMA_8 := []
  EMA_21 := []
  EMA_100 := []
  RSI := []
  MACD := []
  MACD_signal := []
  MACD_hist := []
  BB_upper := []
  BB_middle := []
  BB_lower := []
  ATR := List.replicate 40 (F.val 2)
  MOM := []
  STOCH_K := []
  STOCH_D := []

/-- The grid of c5WitFrame: evenly spaced, strictly monotone levels. -/
def c5WitGrid : Ranging.Grid where
  buy_levels := [2998, 2996, 2994, 2992, 2990, 2988, 2986, 2984, 2982, 2980]
  sell_levels := [3002, 3004, 3006, 3008, 3010, 3012, 3014, 3016, 3018, 3020]
  grid_width := 2
  total_range := 20
  center := 3000
  high := 6025/2
  low := 5975/2
  volatility := Ranging.VolRegime.NORMAL
  atr := some 2

/-- A grid used by the executor claims: four buy and four sell layers of
width 10 around 2005. -/
def c7Grid : Ranging.Grid where
  buy_levels := [2000, 1990, 1980, 1970]
  sell_levels := [2010, 2020, 2030, 2040]
  grid_width := 10
  total_range := 80
  center := 2005
  high := 2040
  low := 1970
  volatility := Ranging.VolRegime.NORMAL
  atr := some 10

/-- A tracker with the LONG side full: 4 open LONG layers. -/
def tracker4 : Exec.GridTracker where
  active_grids :=
    [((Exec.GridDirection.LONG, 0), ⟨0, 2000, F.val (1/100), Exec.GridDirection.LONG⟩),
     ((Exec.GridDirection.LONG, 1), ⟨1, 1990, F.val (1/100), Exec.GridDirection.LONG⟩),
     ((Exec.GridDirection.LONG, 2), ⟨2, 1980, F.val (1/100), Exec.GridDirection.LONG⟩),
     ((Exec.GridDirection.LONG, 3), ⟨3, 1970, F.val (1/100), Exec.GridDirection.LONG⟩)]

/-- An executor state whose LONG side is full. -/
def stFull : Exec.ExecutorState where
  initial_capital := 100
  balance := 100
  consecutive_losses := 0
  consecutive_wins := 0
  grid_tracker := tracker4

/-- An executor state with only the layer-0 LONG grid open. -/
def stOne : Exec.ExecutorState where
  initial_capital := 100
  balance := 100
  consecutive_losses := 0
  consecutive_wins := 0
  grid_tracker :=
    ⟨[((Exec.GridDirection.LONG, 0), ⟨0, 2000, F.val (1/100), Exec.GridDirection.LONG⟩)]⟩

/-- The details record of the accepted layer-0 entry in the C7 input. -/
def c7Details : Exec.ManageDetails where
  current_level := 0
  lot_multiplier := 9/10
  base_lot := 1/100
  loss_reduction := 1
  win_bonus := 1
  consecutive_losses := 0
  consecutive_wins := 0
  grid_id := (Exec.GridDirection.LONG, 0)
  direction := Exec.GridDirection.LONG

/-- A filler row for the C8 failing frame: bullish EMA stack, positive MACD
histogram and momentum, calm RSI, no band breakout, ATR 10. -/
def c8Filler : Strat.SRow where
  close := F.val 5
  EMA_20 := F.val 3
  EMA_50 := F.val 2
  EMA_200 := F.val 1
  RSI := F.val 50
  MACD_hist := F.val 1
  BB_upper := F.val 100
  BB_lower := F.val 0
  ATR := F.val 10
  MOM := F.val 1
  STOCH_K := F.val 50
  STOCH_D := F.val 40

/-- The last row of the C8 failing frame: same bar but with ATR collapsed to
0.1, far below 0.45 times the 10-bar rolling mean ATR of about 9.01. -/
def c8Last : Strat.SRow where
  close := F.val 5
  EMA_20 := F.val 3
  EMA_50 := F.val 2
  EMA_200 := F.val 1
  RSI := F.val 50
  MACD_hist := F.val 1
  BB_upper := F.val 100
  BB_lower := F.val 0
  ATR := F.val (1/10)
  MOM := F.val 1
  STOCH_K := F.val 50
  STOCH_D := F.val 40

/-- The C8 failing frame: ten calm rows then the collapsed-ATR row. -/
def c8Rows : List Strat.SRow := List.replicate 10 c8Filler ++ [c8Last]

/-- C9 counterexample bars: two bars, far fewer than any indicator window. -/
def c9Bars : List ADX.Bar := [⟨2, 1, 1⟩, ⟨3, 2, 2⟩]

/-- The pipeline output on the two C9 bars. -/
def c9Frame : Ind.IndFrame := Ind.calculateAllIndicators primsZero STRATEGY_PARAMS c9Bars

/-- C1 counterexample frame: the pipeline applied to an empty bar list. -/
def emptyFrame : Ind.IndFrame := Ind.calculateAllIndicators primsZero STRATEGY_PARAMS []

/-- C1 witness frame: the pipeline applied to one bar. -/
def oneBarFrame : Ind.IndFrame :=
  Ind.calculateAllIndicators primsZero STRATEGY_PARAMS [⟨2, 1, 3/2⟩]

/-- C4 witness position: a long at 2000 with the initial stop 1985. -/
def c4Pos : Main.BTPos where
  direction := 1
  entry := 2000
  lot := 1/100
  sl := 1985
  initial_sl := 1985
  tp := 2025
  be_triggered := false
  highest_price := some 2000
  lowest_price := none
  adjustments := 0

/- ===== Theorems ===== -/

theorem mem_insSorted (le : ℚ → ℚ → Bool) (x b : ℚ) (l : List ℚ) :
    b ∈ insSorted le x l ↔ b = x ∨ b ∈ l := by
  induction l with
  | nil => simp [insSorted]
  | cons y ys ih =>
    by_cases h : le x y
    · simp [insSorted, h]
    · simp only [insSorted, h]
      simp only [Bool.false_eq_true, if_false, List.mem_cons, ih]
      tauto

theorem insSorted_pairwise (le : ℚ → ℚ → Bool)
    (htrans : ∀ a b c : ℚ, le a b = true → le b c = true → le a c = true)
    (htot : ∀ a b : ℚ, le a b = false → le b a = true)
    (x : ℚ) (l : List ℚ) (hl : l.Pairwise (fun a b => le a b = true)) :
    (insSorted le x l).Pairwise (fun a b => le a b = true) := by
  induction l with
  | nil => simp [insSorted]
  | cons y ys ih =>
    rcases List.pairwise_cons.mp hl with ⟨hy, hys⟩
    by_cases h : le x y
    · simp only [insSorted, h, if_true]
      refine List.pairwise_cons.mpr ⟨?_, hl⟩
      intro b hb
      rcases List.mem_cons.mp hb with rfl | hb
      · exact h
      · exact htrans x y b h (hy b hb)
    · simp only [insSorted, h]
      simp only [Bool.false_eq_true, if_false]
      refine List.pairwise_cons.mpr ⟨?_, ih hys⟩
      intro b hb
      rcases (mem_insSorted le x b ys).mp hb with h1 | hb
      · rw [h1]; exact htot x y (by simpa using h)
      · exact hy b hb

theorem pySortBy_pairwise (le : ℚ → ℚ → Bool)
    (htrans : ∀ a b c : ℚ, le a b = true → le b c = true → le a c = true)
    (htot : ∀ a b : ℚ, le a b = false → le b a = true)
    (l : List ℚ) :
    (pySortBy le l).Pairwise (fun a b => le a b = true) := by
  induction l with
  | nil => simp [pySortBy]
  | cons x xs ih => exact insSorted_pairwise le htrans htot x _ ih

theorem pySortBy_eq_of_pairwise (le : ℚ → ℚ → Bool) (l : List ℚ)
    (hl : l.Pairwise (fun a b => le a b = true)) : pySortBy le l = l := by
  induction l with
  | nil => rfl
  | cons x xs ih =>
    rcases List.pairwise_cons.mp hl with ⟨hx, hxs⟩
    have hrec : pySortBy le xs = xs := ih hxs
    simp only [pySortBy, hrec]
    cases xs with
    | nil => rfl
    | cons y ys => simp [insSorted, hx y (by simp)]

theorem F_mul_val (a b : ℚ) : F.mul (F.val a) (F.val b) = F.val (a * b) := rfl

theorem F_add_val (a b : ℚ) : F.add (F.val a) (F.val b) = F.val (a + b) := rfl

theorem F_sub_val (a b : ℚ) : F.sub (F.val a) (F.val b) = F.val (a - b) := by
  show F.val (a + -b) = F.val (a - b)
  rw [← sub_eq_add_neg]

theorem F_pymin_val (a b : ℚ) : F.pymin (F.val a) (F.val b) = F.val (min a b) := by
  unfold F.pymin F.flt
  rcases le_or_lt a b with h | h
  · simp [not_lt.mpr h, min_eq_left h]
  · simp [h, min_eq_right (le_of_lt h)]

theorem F_pymax_val (a b : ℚ) : F.pymax (F.val a) (F.val b) = F.val (max a b) := by
  unfold F.pymax F.fgt F.flt
  rcases le_or_lt b a with h | h
  · simp [not_lt.mpr h, max_eq_left h]
  · simp [h, max_eq_right (le_of_lt h)]

/-- C3: the spread-adjusted long profit at entry 2000, exit 2010, spread 0.3
and lot 0.01 is ((2010-0.15)-(2000+0.15))*0.01*100 = 9.7, not the 1.94 the
claim asserts. -/
theorem claim_C3_counterexample :
    (Main.calculateTradeProfit 1 2000 2010 (1/100)).1 = 97/10 ∧
    (Main.calculateTradeProfit 1 2000 2010 (1/100)).1 ≠ 194/100 := by
  constructor <;> norm_num [Main.calculateTradeProfit, Main.SPREAD]

/-- C3 (amended): the long trade at entry 2000, exit 2010, spread 0.3, lot
0.01 fills at 2000.15 and 2009.85 and the spread-adjusted profit is
((2010-0.15)-(2000+0.15))*0.01*100 = 9.7. -/
theorem claim_C3_theorem :
    Main.calculateTradeProfit 1 2000 2010 (1/100) = (97/10, 40003/20, 40197/20) := by
  norm_num [Main.calculateTradeProfit, Main.SPREAD]

/-- C10: after update_consecutive_counts at most one streak counter is
nonzero; a positive pnl zeroes the losses and bumps the wins, a negative pnl
zeroes the wins and bumps the losses, and a zero pnl zeroes both. -/
theorem claim_C10_theorem (st : Exec.ExecutorState) (pnl : ℚ) :
    ((Exec.updateConsecutiveCounts st pnl).consecutive_wins = 0 ∨
     (Exec.updateConsecutiveCounts st pnl).consecutive_losses = 0) ∧
    (0 < pnl → (Exec.updateConsecutiveCounts st pnl).consecutive_losses = 0 ∧
      (Exec.updateConsecutiveCounts st pnl).consecutive_wins = st.consecutive_wins + 1) ∧
    (pnl < 0 → (Exec.updateConsecutiveCounts st pnl).consecutive_wins = 0 ∧
      (Exec.updateConsecutiveCounts st pnl).consecutive_losses = st.consecutive_losses + 1) ∧
    (pnl = 0 → (Exec.updateConsecutiveCounts st pnl).consecutive_wins = 0 ∧
      (Exec.updateConsecutiveCounts st pnl).consecutive_losses = 0) := by
  unfold Exec.updateConsecutiveCounts
  split_ifs with h1 h2
  · exact ⟨Or.inr rfl, fun _ => ⟨rfl, rfl⟩, fun h => absurd h (by linarith),
      fun h => absurd h (by linarith)⟩
  · exact ⟨Or.inl rfl, fun h => absurd h (by linarith), fun _ => ⟨rfl, rfl⟩,
      fun h => absurd h (by linarith)⟩
  · exact ⟨Or.inl rfl, fun h => absurd h (by linarith), fun h => absurd h (by linarith),
      fun _ => ⟨rfl, rfl⟩⟩

theorem claim_C10_witness :
    ((Exec.updateConsecutiveCounts (Exec.initialExecutorState 100) 1).consecutive_losses = 0 ∧
     (Exec.updateConsecutiveCounts (Exec.initialExecutorState 100) 1).consecutive_wins = 1) ∧
    ((Exec.updateConsecutiveCounts (Exec.initialExecutorState 100) 0).consecutive_wins = 0 ∧
     (Exec.updateConsecutiveCounts (Exec.initialExecutorState 100) 0).consecutive_losses = 0) :=
  ⟨(claim_C10_theorem (Exec.initialExecutorState 100) 1).2.1 (by norm_num),
   (claim_C10_theorem (Exec.initialExecutorState 100) 0).2.2.2 rfl⟩

theorem updatePosBar_id_of_triggered (price atr : ℚ) (pos : Main.BTPos)
    (h : pos.be_triggered = true) :
    Main.updatePosBar RISK_CONFIG price atr pos = pos := by
  unfold Main.updatePosBar
  simp [RISK_CONFIG, h]

/-- C4: with the configured RISK_CONFIG (trailing_stop = False,
break_even_trigger = 0.6), once the favorable distance of an open simulated
position reaches break_even_trigger * ATR its stop is set exactly to the
entry price and the breakeven flag is set; and from any triggered state,
across all subsequent bars, the flag is never cleared and the stop and entry
never change. -/
theorem claim_C4_theorem :
    (∀ (price atr : ℚ) (pos : Main.BTPos),
      pos.be_triggered = false →
      Main.favorableDistance pos price ≥ RISK_CONFIG.break_even_trigger * atr →
      (Main.updatePosBar RISK_CONFIG price atr pos).sl = pos.entry ∧
      (Main.updatePosBar RISK_CONFIG price atr pos).be_triggered = true) ∧
    (∀ (bars : List (ℚ × ℚ)) (pos : Main.BTPos),
      pos.be_triggered = true →
      (Main.runPosBars RISK_CONFIG bars pos).be_triggered = true ∧
      (Main.runPosBars RISK_CONFIG bars pos).sl = pos.sl ∧
      (Main.runPosBars RISK_CONFIG bars pos).entry = pos.entry) := by
  constructor
  · intro price atr pos hbe htrig
    unfold Main.updatePosBar
    simp [RISK_CONFIG] at htrig ⊢
    simp [htrig, hbe]
  · intro bars
    induction bars with
    | nil => intro pos h; exact ⟨h, rfl, rfl⟩
    | cons b bs ih =>
      intro pos h
      have hstep : Main.updatePosBar RISK_CONFIG b.1 b.2 pos = pos :=
        updatePosBar_id_of_triggered b.1 b.2 pos h
      have : Main.runPosBars RISK_CONFIG (b :: bs) pos =
          Main.runPosBars RISK_CONFIG bs pos := by
        unfold Main.runPosBars
        simp [hstep]
      rw [this]
      exact ih pos h

theorem claim_C4_witness :
    ((Main.updatePosBar RISK_CONFIG 2010 10 c4Pos).sl = c4Pos.entry ∧
     (Main.updatePosBar RISK_CONFIG 2010 10 c4Pos).be_triggered = true) ∧
    ((Main.runPosBars RISK_CONFIG [(1990, 10)]
        { c4Pos with sl := 2000, be_triggered := true }).be_triggered = true ∧
     (Main.runPosBars RISK_CONFIG [(1990, 10)]
        { c4Pos with sl := 2000, be_triggered := true }).sl = 2000 ∧
     (Main.runPosBars RISK_CONFIG [(1990, 10)]
        { c4Pos with sl := 2000, be_triggered := true }).entry = 2000) :=
  ⟨claim_C4_theorem.1 2010 10 c4Pos rfl
    (by norm_num [Main.favorableDistance, c4Pos, RISK_CONFIG]),
   claim_C4_theorem.2 [(1990, 10)] _ rfl⟩

theorem gridHit_direction (g : Ranging.Grid) (price : ℚ) (sig : ℤ) (i : ℕ)
    (dir : Exec.GridDirection) (h : Exec.gridHit g price sig = some (i, dir)) :
    (sig = 1 ∧ dir = Exec.GridDirection.LONG) ∨
    (sig = -1 ∧ dir = Exec.GridDirection.SHORT) := by
  unfold Exec.gridHit at h
  by_cases h1 : sig = 1
  · left
    refine ⟨h1, ?_⟩
    rw [if_pos h1] at h
    cases hs : Ranging.scanLevels (fun lv => price ≤ lv * (101/100)) g.buy_levels with
    | none => rw [hs] at h; simp at h
    | some r => rw [hs] at h; simp at h; exact h.2.symm
  · by_cases h2 : sig = -1
    · right
      refine ⟨h2, ?_⟩
      rw [if_neg h1, if_pos h2] at h
      cases hs : Ranging.scanLevels (fun lv => price ≥ lv * (99/100)) g.sell_levels with
      | none => rw [hs] at h; simp at h
      | some r => rw [hs] at h; simp at h; exact h.2.symm
    · rw [if_neg h1, if_neg h2] at h; simp at h

/-- C6: whenever the tracker already holds max_grids_per_side = 4 open
positions in the direction of a nonzero signal, manage_grid_positions returns
(HOLD, 0, None) whatever the confidence; the same holds whenever the matched
grid_id already has an open position. -/
theorem claim_C6_theorem :
    (∀ (st : Exec.ExecutorState) (price : ℚ) (g : Ranging.Grid) (conf : F) (sig : ℤ),
      (sig = 1 ∨ sig = -1) →
      Exec.getDirectionCount st.grid_tracker (Exec.dirOfSignal sig) ≥
        Exec.max_grids_per_side →
      Exec.manageGridPositions st price (some g) sig conf =
        (Exec.Action.HOLD, F.val 0, none)) ∧
    (∀ (st : Exec.ExecutorState) (price : ℚ) (g : Ranging.Grid) (conf : F) (sig : ℤ)
      (i : ℕ) (dir : Exec.GridDirection),
      Exec.gridHit g price sig = some (i, dir) →
      Exec.hasGrid st.grid_tracker (dir, i) = true →
      Exec.manageGridPositions st price (some g) sig conf =
        (Exec.Action.HOLD, F.val 0, none)) := by
  constructor
  · intro st price g conf sig hsig hcount
    unfold Exec.manageGridPositions
    cases hhit : Exec.gridHit g price sig with
    | none => simp [hhit]
    | some r =>
      obtain ⟨i, dir⟩ := r
      have hdir : dir = Exec.dirOfSignal sig := by
        rcases gridHit_direction g price sig i dir hhit with ⟨hs, hd⟩ | ⟨hs, hd⟩
        · rw [hd, hs]; rfl
        · rw [hd, hs]; rfl
      by_cases hdup : Exec.hasGrid st.grid_tracker (dir, i)
      · simp [hhit, hdup]
      · have hc : Exec.getDirectionCount st.grid_tracker dir ≥ Exec.max_grids_per_side := by
          rw [hdir]; exact hcount
        simp [hhit, hdup, hc]
  · intro st price g conf sig i dir hhit hdup
    unfold Exec.manageGridPositions
    simp [hhit, hdup]

theorem gridHit_c7_eval :
    Exec.gridHit c7Grid 1999 1 = some (0, Exec.GridDirection.LONG) := by
  norm_num [Exec.gridHit, Ranging.scanLevels, c7Grid]

theorem claim_C6_witness :
    Exec.manageGridPositions stFull 1999 (some c7Grid) 1 (F.val 1) =
      (Exec.Action.HOLD, F.val 0, none) ∧
    Exec.manageGridPositions stOne 1999 (some c7Grid) 1 (F.val 1) =
      (Exec.Action.HOLD, F.val 0, none) :=
  ⟨claim_C6_theorem.1 stFull 1999 c7Grid (F.val 1) 1 (Or.inl rfl) (by decide),
   claim_C6_theorem.2 stOne 1999 c7Grid (F.val 1) 1 0 Exec.GridDirection.LONG
     gridHit_c7_eval (by decide)⟩

/-- C7: at an accepted layer-0 entry with confidence 1, no streaks and
balance 100 the executor returns lot 0.009, not the 0.010 of the claimed
formula baseLot * (1.0 + 0.35*i) * confidence * streak factors clamped to
[minLot, balance/4000]: the code multiplies by 0.9 + 0.35*i instead. -/
theorem manage_c7_eval :
    Exec.manageGridPositions (Exec.initialExecutorState 100) 1999 (some c7Grid) 1
      (F.val 1) = (Exec.Action.BUY_GRID, F.val (9/1000), some c7Details) := by
  simp only [Exec.manageGridPositions, gridHit_c7_eval]
  have hdup : Exec.hasGrid (Exec.initialExecutorState 100).grid_tracker
      (Exec.GridDirection.LONG, 0) = false := by decide
  have hcount : ¬ (Exec.getDirectionCount (Exec.initialExecutorState 100).grid_tracker
      Exec.GridDirection.LONG ≥ Exec.max_grids_per_side) := by decide
  simp only [hdup, Bool.false_eq_true, if_false, hcount]
  simp only [F_mul_val, Exec.roundF3, F_pymin_val, F_pymax_val]
  have h1 : pyRound3 (1/100 * (9/10 + (0 : ℕ) * (7/20)) * 1 *
      Exec.lossReduction (Exec.initialExecutorState 100).consecutive_losses *
      Exec.winBonus (Exec.initialExecutorState 100).consecutive_wins) = 9/1000 := by
    norm_num [pyRound3, Exec.lossReduction, Exec.winBonus, Exec.initialExecutorState]
  norm_num [Exec.initialExecutorState, Exec.lossReduction, Exec.winBonus, pyRound3,
    c7Details]

theorem claim_C7_counterexample :
    Exec.manageGridPositions (Exec.initialExecutorState 100) 1999 (some c7Grid) 1
      (F.val 1) = (Exec.Action.BUY_GRID, F.val (9/1000), some c7Details) ∧
    (9/1000 : ℚ) ≠ Exec.specLotFormula 0 1 0 0 100 := by
  refine ⟨manage_c7_eval, ?_⟩
  norm_num [Exec.specLotFormula, Exec.lossReduction, Exec.winBonus]

/-- C7 (amended): whenever manage_grid_positions accepts a grid entry at
layer index i, the returned lot equals baseLot * (0.9 + 0.35*i) * confidence
* lossStreakFactor * winStreakFactor, rounded to three decimals and then
clamped to [0.005, balance/4000]. -/
theorem claim_C7_theorem (st : Exec.ExecutorState) (price : ℚ) (g : Ranging.Grid)
    (sig : ℤ) (c : ℚ) (act : Exec.Action) (lot : F) (det : Exec.ManageDetails)
    (h : Exec.manageGridPositions st price (some g) sig (F.val c) = (act, lot, some det)) :
    lot = F.val (max (1/200)
      (min (pyRound3 ((1/100) * (9/10 + (det.current_level : ℚ) * (7/20)) * c *
        Exec.lossReduction st.consecutive_losses * Exec.winBonus st.consecutive_wins))
        (st.balance / 4000))) := by
  unfold Exec.manageGridPositions at h
  cases hhit : Exec.gridHit g price sig with
  | none => simp [hhit] at h
  | some r =>
    obtain ⟨i, dir⟩ := r
    simp only [hhit] at h
    by_cases hdup : Exec.hasGrid st.grid_tracker (dir, i)
    · simp [hdup] at h
    · by_cases hcount : Exec.getDirectionCount st.grid_tracker dir ≥ Exec.max_grids_per_side
      · simp [hdup, hcount] at h
      · rw [if_neg hdup, if_neg hcount] at h
        simp only [F_mul_val, Exec.roundF3, F_pymin_val, F_pymax_val] at h
        have h23 := congrArg Prod.snd h
        have hlot : F.val (max (1/200)
            (min (pyRound3 (1/100 * (9/10 + (i : ℚ) * (7/20)) * c *
              Exec.lossReduction st.consecutive_losses *
              Exec.winBonus st.consecutive_wins)) (st.balance / 4000))) = lot :=
          congrArg Prod.fst h23
        have hdetEq : (⟨i, 9/10 + (i : ℚ) * (7/20), 1/100,
            Exec.lossReduction st.consecutive_losses, Exec.winBonus st.consecutive_wins,
            st.consecutive_losses, st.consecutive_wins, (dir, i), dir⟩ :
              Exec.ManageDetails) = det :=
          Option.some.inj (congrArg Prod.snd h23)
        have hlvl : det.current_level = i := (congrArg Exec.ManageDetails.current_level
          hdetEq).symm
        rw [← hlot, hlvl]

theorem claim_C7_witness :
    F.val (9/1000) = F.val (max (1/200)
      (min (pyRound3 ((1/100) * (9/10 + (c7Details.current_level : ℚ) * (7/20)) * 1 *
        Exec.lossReduction (Exec.initialExecutorState 100).consecutive_losses *
        Exec.winBonus (Exec.initialExecutorState 100).consecutive_wins))
        ((Exec.initialExecutorState 100).balance / 4000))) :=
  claim_C7_theorem (Exec.initialExecutorState 100) 1999 c7Grid 1 1
    Exec.Action.BUY_GRID (F.val (9/1000)) c7Details manage_c7_eval

theorem c8Rows_getLast? : c8Rows.getLast? = some c8Last := by
  rw [c8Rows, List.getLast?_concat]

/-- C8: the voting engine has no low-volatility sleep filter: on a frame
whose last ATR (0.1) is far below vol_threshold (0.45) times the 10-bar
rolling mean ATR (about 9.01), generate_combined_signal still returns the
vote-sum signal 1 with ordinary vote labels instead of the zero signal and
sleeping votes the claim requires. -/
theorem claim_C8_theorem :
    Strat.specSleepCondition STRATEGY_PARAMS c8Rows = true ∧
    (Strat.generateCombinedSignal c8Rows STRATEGY_PARAMS).map (fun r => r.1) = some 1 := by
  constructor
  · have hmap : c8Rows.map (fun r => r.ATR) =
        List.replicate 10 (F.val 10) ++ [F.val (1/10)] := by
      rw [c8Rows]
      simp [c8Filler, c8Last]
    rw [Strat.specSleepCondition, hmap]
    have htail : Ind.pyTailF 10 (List.replicate 10 (F.val 10) ++ [F.val (1/10)]) =
        List.replicate 9 (F.val 10) ++ [F.val (1/10)] := by
      rw [Ind.pyTailF]
      norm_num [List.replicate_succ]
    simp only [STRATEGY_PARAMS]
    rw [htail, List.getLast?_concat]
    rw [Ind.seriesMeanF]
    norm_num [List.replicate_succ, List.filter, F.isNan, F.fdiv, F.qdiv, F_add_val,
      F_mul_val, F.flt, STRATEGY_PARAMS]
  · have hlast : c8Rows.getLast? = some c8Last := c8Rows_getLast?
    have hrev : c8Rows.reverse = c8Last :: c8Filler :: List.replicate 9 c8Filler := by
      rw [c8Rows]
      simp [List.replicate_succ]
    have hs1 : Strat.trendFollowing c8Rows STRATEGY_PARAMS = some 1 := by
      rw [Strat.trendFollowing, hlast]
      norm_num [c8Last, F.fgt, F.flt, STRATEGY_PARAMS]
    have hs2 : Strat.meanReversion c8Rows STRATEGY_PARAMS = some 0 := by
      rw [Strat.meanReversion, hlast]
      norm_num [c8Last, F.fgt, F.flt, STRATEGY_PARAMS, F.fdiv, F.qdiv, F_sub_val]
    have hs3 : Strat.breakout c8Rows STRATEGY_PARAMS = some 0 := by
      rw [Strat.breakout, hrev]
      norm_num [c8Last, c8Filler, F.fgt, F.flt, F.fle, F.fge]
    have hs4 : Strat.momentum c8Rows STRATEGY_PARAMS = some 1 := by
      rw [Strat.momentum, hlast]
      norm_num [c8Last, F.fgt, F.flt]
    rw [Strat.generateCombinedSignal, hs1, hs2, hs3, hs4]
    norm_num [STRATEGY_PARAMS]

theorem rollingMean_getLast?_of_short (w : ℕ) (xs : List ℚ) (h1 : xs ≠ [])
    (h2 : xs.length < w) : (Ind.rollingMean w xs).getLast? = some F.nan := by
  have hn : xs.length = (xs.length - 1) + 1 :=
    (Nat.succ_pred_eq_of_pos (List.length_pos.mpr h1)).symm
  rw [Ind.rollingMean, hn, List.range_succ, List.map_append, List.map_cons, List.map_nil,
    List.getLast?_concat]
  have : xs.length - 1 + 1 < w := by omega
  rw [if_pos this]

theorem rollingMeanF_getLast?_of_short (w : ℕ) (xs : List F) (h1 : xs ≠ [])
    (h2 : xs.length < w) : (Ind.rollingMeanF w xs).getLast? = some F.nan := by
  have hn : xs.length = (xs.length - 1) + 1 :=
    (Nat.succ_pred_eq_of_pos (List.length_pos.mpr h1)).symm
  rw [Ind.rollingMeanF, hn, List.range_succ, List.map_append, List.map_cons, List.map_nil,
    List.getLast?_concat]
  have : xs.length - 1 + 1 < w := by omega
  rw [if_pos this]

theorem zipWith_getLast?_eq (f : F → F → F) :
    ∀ (as bs : List F) (a b : F), as.length = bs.length →
    as.getLast? = some a → bs.getLast? = some b →
    (List.zipWith f as bs).getLast? = some (f a b) := by
  intro as
  induction as with
  | nil => intro bs a b _ ha _; simp at ha
  | cons x xs ih =>
    intro bs a b hlen ha hb
    cases bs with
    | nil => simp at hlen
    | cons y ys =>
      cases xs with
      | nil =>
        cases ys with
        | nil =>
          simp at ha hb
          simp [List.zipWith, ha, hb]
        | cons y2 ys2 => simp at hlen
      | cons x2 xs2 =>
        cases ys with
        | nil => simp at hlen
        | cons y2 ys2 =>
          have hlen2 : (x2 :: xs2).length = (y2 :: ys2).length := by
            simpa using hlen
          have ha2 : (x2 :: xs2).getLast? = some a := by
            rw [← List.getLast?_cons_cons]; exact ha
          have hb2 : (y2 :: ys2).getLast? = some b := by
            rw [← List.getLast?_cons_cons]; exact hb
          have := ih (y2 :: ys2) a b hlen2 ha2 hb2
          rw [List.zipWith_cons_cons, List.zipWith_cons_cons]
          rw [List.zipWith_cons_cons] at this
          rw [List.getLast?_cons_cons]
          exact this

theorem gains_length (xs : List ℚ) : (Ind.gains xs).length = xs.length := by
  simp [Ind.gains]

theorem losses_length (xs : List ℚ) : (Ind.losses xs).length = xs.length := by
  simp [Ind.losses]

theorem rollingMean_length (w : ℕ) (xs : List ℚ) :
    (Ind.rollingMean w xs).length = xs.length := by
  simp [Ind.rollingMean]

/-- C9 (amended): calculate_all_indicators performs no NaN replacement: on any
nonempty frame with fewer than 14 bars the latest RSI and ATR cells are NaN,
not 0; NaN handling is left entirely to the callers. -/
theorem claim_C9_theorem (prims : StatPrims) (bars : List ADX.Bar)
    (h1 : bars ≠ []) (h2 : bars.length < 14) :
    (Ind.calculateAllIndicators prims STRATEGY_PARAMS bars).RSI.getLast? = some F.nan ∧
    (Ind.calculateAllIndicators prims STRATEGY_PARAMS bars).ATR.getLast? = some F.nan := by
  have hbn : (bars.map (fun b => b.close)).length = bars.length := by simp
  have hne : bars.map (fun b => b.close) ≠ [] := by
    simp [List.map_eq_nil_iff]
    exact h1
  constructor
  · simp only [Ind.calculateAllIndicators, Ind.rsi, STRATEGY_PARAMS]
    have hbp : 0 < bars.length := List.length_pos.mpr h1
    have hg : Ind.gains (bars.map (fun b => b.close)) ≠ [] := by
      intro h
      have hgl := gains_length (bars.map (fun b => b.close))
      rw [h] at hgl
      simp only [List.length_nil] at hgl
      omega
    have hl : Ind.losses (bars.map (fun b => b.close)) ≠ [] := by
      intro h
      have hll := losses_length (bars.map (fun b => b.close))
      rw [h] at hll
      simp only [List.length_nil] at hll
      omega
    have hglen : (Ind.gains (bars.map (fun b => b.close))).length < 14 := by
      rw [gains_length, hbn]; exact h2
    have hllen : (Ind.losses (bars.map (fun b => b.close))).length < 14 := by
      rw [losses_length, hbn]; exact h2
    have hga := rollingMean_getLast?_of_short 14 _ hg hglen
    have hla := rollingMean_getLast?_of_short 14 _ hl hllen
    have hlen : (Ind.rollingMean 14 (Ind.gains (bars.map (fun b => b.close)))).length =
        (Ind.rollingMean 14 (Ind.losses (bars.map (fun b => b.close)))).length := by
      rw [rollingMean_length, rollingMean_length, gains_length, losses_length]
    rw [zipWith_getLast?_eq _ _ _ F.nan F.nan hlen hga hla]
    rfl
  · simp only [Ind.calculateAllIndicators, STRATEGY_PARAMS]
    have hbp : 0 < bars.length := List.length_pos.mpr h1
    have htn : Ind.trIndF bars ≠ [] := by
      intro h
      have hh : (Ind.trIndF bars).length = bars.length := by simp [Ind.trIndF]
      rw [h] at hh
      simp only [List.length_nil] at hh
      omega
    have htlen : (Ind.trIndF bars).length < 14 := by
      have : (Ind.trIndF bars).length = bars.length := by simp [Ind.trIndF]
      rw [this]; exact h2
    exact rollingMeanF_getLast?_of_short 14 _ htn htlen

/-- C9: on the two-bar frame the pipeline leaves NaN in the latest row: the
RSI and ATR cells of the last row are NaN, not 0, refuting the claimed
fillna(0) post-processing. -/
theorem claim_C9_counterexample :
    c9Frame.RSI.getLast? = some F.nan ∧ c9Frame.ATR.getLast? = some F.nan :=
  ⟨rfl, rfl⟩

theorem claim_C9_witness :
    (Ind.calculateAllIndicators primsZero STRATEGY_PARAMS
      [⟨2, 1, 1⟩, ⟨3, 2, 2⟩]).RSI.getLast? = some F.nan ∧
    (Ind.calculateAllIndicators primsZero STRATEGY_PARAMS
      [⟨2, 1, 1⟩, ⟨3, 2, 2⟩]).ATR.getLast? = some F.nan :=
  claim_C9_theorem primsZero [⟨2, 1, 1⟩, ⟨3, 2, 2⟩] (by simp) (by simp)

/-- C1 (amended): on every nonempty frame with fewer than 80 bars the
orchestrator returns the safe default: signal 0, confidence 0, market type
RANGING, and no exception, for every statistics instantiation, manager state
and wall-clock time. -/
theorem claim_C1_theorem (prims : StatPrims) (st : Main.ManagerState) (now : ℚ)
    (hour : ℕ) (df : Ind.IndFrame) (h1 : df.bars ≠ []) (h2 : df.bars.length < 80) :
    (Main.generateSignal prims st now hour df).map
      (fun r => (r.1.signal, r.1.confidence, r.1.market_type)) =
      Except.ok (0, F.val 0, Main.MarketType.RANGING) := by
  have hm : Main.analyzeMarket df =
      ⟨Main.MarketType.RANGING, 0, F.val 0, F.val 0, F.val 0⟩ := by
    rw [Main.analyzeMarket, if_pos h2]
  have hp : Ranging.generateProfessionalSignal prims st.ranging now hour df =
      ((0, F.val 0, ⟨Ranging.DetailsStatus.insufficientData, none, 0⟩), st.ranging) := by
    rw [Ranging.generateProfessionalSignal, if_pos h2]
  have hmape : df.bars.map (fun b => b.close) ≠ [] := by
    simpa [List.map_eq_nil_iff] using h1
  obtain ⟨p, hpl⟩ : ∃ p, (df.bars.map (fun b => b.close)).getLast? = some p :=
    Option.isSome_iff_exists.mp (by rw [List.getLast?_isSome]; exact hmape)
  simp only [Main.generateSignal, hm, hp, hpl, Exec.manageGridPositions]
  rfl

/-- C1: on an empty bar frame generate_signal raises IndexError evaluating
df[close].iloc[-1] for the executor call, rather than returning the safe
default the claim promises for every frame shorter than 80 bars. -/
theorem claim_C1_counterexample :
    Main.generateSignal primsZero Main.initialManagerState 0 0 emptyFrame =
      Except.error "IndexError: single positional indexer is out-of-bounds" := by
  rfl

theorem claim_C1_witness :
    (Main.generateSignal primsZero Main.initialManagerState 0 0 oneBarFrame).map
      (fun r => (r.1.signal, r.1.confidence, r.1.market_type)) =
      Except.ok (0, F.val 0, Main.MarketType.RANGING) :=
  claim_C1_theorem primsZero Main.initialManagerState 0 0 oneBarFrame
    (by simp [oneBarFrame, Ind.calculateAllIndicators])
    (by simp [oneBarFrame, Ind.calculateAllIndicators])

theorem trdmGo_bounds (prev : ADX.Bar) (hprev : ADX.WFBar prev) (bs : List ADX.Bar)
    (hbs : ∀ b ∈ bs, ADX.WFBar b) :
    ∀ t ∈ ADX.trdmGo prev bs,
      0 ≤ t.1 ∧ 0 ≤ t.2.1 ∧ t.2.1 ≤ t.1 ∧ 0 ≤ t.2.2 ∧ t.2.2 ≤ t.1 := by
  induction bs generalizing prev with
  | nil => simp [ADX.trdmGo]
  | cons b bs ih =>
    intro t ht
    have hb : ADX.WFBar b := hbs b (by simp)
    rw [ADX.trdmGo] at ht
    rcases List.mem_cons.mp ht with heq | ht2
    · subst heq
      obtain ⟨hl, hh⟩ := hb
      obtain ⟨hpl, hph⟩ := hprev
      have htr0 : (0:ℚ) ≤ b.high - b.low := by linarith
      have htr : (0:ℚ) ≤ max (b.high - b.low) (max |b.high - prev.close| |b.low - prev.close|) :=
        le_trans htr0 (le_max_left _ _)
      refine ⟨htr, ?_, ?_, ?_, ?_⟩
      · by_cases hc : b.high - prev.high > prev.low - b.low ∧ b.high - prev.high > 0
        · simp only [if_pos hc]; linarith [hc.2]
        · simp only [if_neg hc]; exact le_refl 0
      · by_cases hc : b.high - prev.high > prev.low - b.low ∧ b.high - prev.high > 0
        · simp only [if_pos hc]
          have h1 : b.high - prev.high ≤ b.high - prev.close := by linarith
          have h2 : b.high - prev.close ≤ |b.high - prev.close| := le_abs_self _
          have h3 : |b.high - prev.close| ≤
              max |b.high - prev.close| |b.low - prev.close| := le_max_left _ _
          have h4 : max |b.high - prev.close| |b.low - prev.close| ≤
              max (b.high - b.low) (max |b.high - prev.close| |b.low - prev.close|) :=
            le_max_right _ _
          linarith
        · simp only [if_neg hc]; exact htr
      · by_cases hc : prev.low - b.low > b.high - prev.high ∧ prev.low - b.low > 0
        · simp only [if_pos hc]; linarith [hc.2]
        · simp only [if_neg hc]; exact le_refl 0
      · by_cases hc : prev.low - b.low > b.high - prev.high ∧ prev.low - b.low > 0
        · simp only [if_pos hc]
          have h1 : prev.low - b.low ≤ prev.close - b.low := by linarith
          have h2 : prev.close - b.low ≤ |b.low - prev.close| := by
            rw [abs_sub_comm]; exact le_abs_self _
          have h3 : |b.low - prev.close| ≤
              max |b.high - prev.close| |b.low - prev.close| := le_max_right _ _
          have h4 : max |b.high - prev.close| |b.low - prev.close| ≤
              max (b.high - b.low) (max |b.high - prev.close| |b.low - prev.close|) :=
            le_max_right _ _
          linarith
        · simp only [if_neg hc]; exact htr
    · exact ih b hb (fun x hx => hbs x (by simp [hx])) t ht2

theorem trdm_bounds (bars : List ADX.Bar) (hwf : ∀ b ∈ bars, ADX.WFBar b) :
    ∀ t ∈ ADX.trdm bars,
      0 ≤ t.1 ∧ 0 ≤ t.2.1 ∧ t.2.1 ≤ t.1 ∧ 0 ≤ t.2.2 ∧ t.2.2 ≤ t.1 := by
  cases bars with
  | nil => simp [ADX.trdm]
  | cons b bs =>
    intro t ht
    have hb : ADX.WFBar b := hwf b (by simp)
    rw [ADX.trdm] at ht
    rcases List.mem_cons.mp ht with heq | ht2
    · subst heq
      obtain ⟨hl, hh⟩ := hb
      have : (0:ℚ) ≤ b.high - b.low := by linarith
      exact ⟨this, le_refl 0, this, le_refl 0, this⟩
    · exact trdmGo_bounds b hb bs (fun x hx => hwf x (by simp [hx])) t ht2

theorem forall2_map_of (l : List (ℚ × ℚ × ℚ)) (P : (ℚ × ℚ × ℚ) → Prop)
    (f g : (ℚ × ℚ × ℚ) → ℚ) (h : ∀ t ∈ l, P t)
    (himp : ∀ t, P t → 0 ≤ f t ∧ f t ≤ g t) :
    List.Forall₂ (fun x y => 0 ≤ x ∧ x ≤ y) (l.map f) (l.map g) := by
  induction l with
  | nil => simp
  | cons t l ih =>
    simp only [List.map_cons]
    exact List.Forall₂.cons (himp t (h t (by simp)))
      (ih (fun x hx => h x (by simp [hx])))

theorem wilderGo_bounds (a : ℚ) (ha0 : 0 ≤ a) (ha1 : a ≤ 1) :
    ∀ (xs ys : List ℚ), List.Forall₂ (fun x y => 0 ≤ x ∧ x ≤ y) xs ys →
    ∀ (p q : ℚ), 0 ≤ p → p ≤ q →
    List.Forall₂ (fun x y => 0 ≤ x ∧ x ≤ y) (ADX.wilderGo a p xs) (ADX.wilderGo a q ys) := by
  intro xs ys h
  induction h with
  | nil => intro p q _ _; simp [ADX.wilderGo]
  | @cons x y xs ys hxy _ ih =>
    intro p q hp hpq
    rw [ADX.wilderGo, ADX.wilderGo]
    have h1a : (0:ℚ) ≤ 1 - a := by linarith
    have hs0 : 0 ≤ (1 - a) * p + a * x := by
      have := mul_nonneg h1a hp
      have := mul_nonneg ha0 hxy.1
      linarith
    have hst : (1 - a) * p + a * x ≤ (1 - a) * q + a * y := by
      have := mul_le_mul_of_nonneg_left hpq h1a
      have := mul_le_mul_of_nonneg_left hxy.2 ha0
      linarith
    exact List.Forall₂.cons ⟨hs0, hst⟩ (ih _ _ hs0 hst)

theorem wilder_bounds (a : ℚ) (ha0 : 0 ≤ a) (ha1 : a ≤ 1) (xs ys : List ℚ)
    (h : List.Forall₂ (fun x y => 0 ≤ x ∧ x ≤ y) xs ys) :
    List.Forall₂ (fun x y => 0 ≤ x ∧ x ≤ y) (ADX.wilder a xs) (ADX.wilder a ys) := by
  cases h with
  | nil => simp [ADX.wilder]
  | cons hxy htail =>
    rw [ADX.wilder, ADX.wilder]
    exact List.Forall₂.cons hxy (wilderGo_bounds a ha0 ha1 _ _ htail _ _ hxy.1 hxy.2)

theorem diCell_spec (d a : ℚ) (h0 : 0 ≤ d) (h1 : d ≤ a) :
    (a = 0 ∧ ADX.diCell d a = F.nan) ∨
    (0 < a ∧ ADX.diCell d a = F.val (100 * d / a) ∧
      0 ≤ 100 * d / a ∧ 100 * d / a ≤ 100) := by
  by_cases ha : a = 0
  · left
    refine ⟨ha, ?_⟩
    have hd : d = 0 := le_antisymm (ha ▸ h1) h0
    rw [ADX.diCell, F.qdiv, hd, ha]
    norm_num
  · right
    have hapos : 0 < a := lt_of_le_of_ne (le_trans h0 h1) (Ne.symm ha)
    refine ⟨hapos, ?_, ?_, ?_⟩
    · rw [ADX.diCell, F.qdiv, if_pos ha]
    · positivity
    · rw [div_le_iff hapos]
      nlinarith

theorem dxCell_good (p n a : ℚ) (hp0 : 0 ≤ p) (hp1 : p ≤ a) (hn0 : 0 ≤ n) (hn1 : n ≤ a) :
    ADX.GoodCell (ADX.dxCell (ADX.diCell p a) (ADX.diCell n a)) := by
  rcases diCell_spec p a hp0 hp1 with ⟨ha, hpe⟩ | ⟨hapos, hpe, hpb0, hpb1⟩
  · rcases diCell_spec n a hn0 hn1 with ⟨_, hne⟩ | ⟨hapos, _, _, _⟩
    · rw [hpe, hne]
      left
      rfl
    · exact absurd ha (ne_of_gt hapos)
  · rcases diCell_spec n a hn0 hn1 with ⟨ha, _⟩ | ⟨_, hne, hnb0, hnb1⟩
    · exact absurd ha (ne_of_gt hapos)
    · rw [hpe, hne]
      set p2 := 100 * p / a with hp2
      set n2 := 100 * n / a with hn2
      rw [ADX.dxCell]
      simp only [F_add_val]
      by_cases hz : p2 + n2 = 0
      · have : F.feq (F.val (p2 + n2)) (F.val 0) = true := by
          simp [F.feq, hz]
        rw [if_pos this]
        right
        exact ⟨0, rfl, le_refl 0, by norm_num⟩
      · have hzb : F.feq (F.val (p2 + n2)) (F.val 0) = false := by
          simp [F.feq, hz]
        rw [hzb]
        simp only [Bool.false_eq_true, if_false]
        have hspos : 0 < p2 + n2 := lt_of_le_of_ne (by linarith) (Ne.symm hz)
        right
        refine ⟨100 * |p2 - n2| / (p2 + n2), ?_, by positivity, ?_⟩
        · simp only [F_sub_val, F.fabs, F_mul_val, F.fdiv, F.qdiv, if_pos (ne_of_gt hspos)]
        · rw [div_le_iff hspos]
          have habs : |p2 - n2| ≤ p2 + n2 := by
            rw [abs_le]
            constructor <;> linarith
          nlinarith

theorem dxList_good : ∀ (atr pds nds : List ℚ),
    List.Forall₂ (fun x y => 0 ≤ x ∧ x ≤ y) pds atr →
    List.Forall₂ (fun x y => 0 ≤ x ∧ x ≤ y) nds atr →
    ∀ x ∈ List.zipWith ADX.dxCell (List.zipWith ADX.diCell pds atr)
      (List.zipWith ADX.diCell nds atr), ADX.GoodCell x := by
  intro atr
  induction atr with
  | nil =>
    intro pds nds h1 h2
    cases h1
    cases h2
    simp
  | cons a atr ih =>
    intro pds nds h1 h2
    cases h1 with
    | cons hp h1tail =>
      cases h2 with
      | cons hn h2tail =>
        intro x hx
        simp only [List.zipWith_cons_cons] at hx
        rcases List.mem_cons.mp hx with heq | hx2
        · subst heq
          exact dxCell_good _ _ a hp.1 hp.2 hn.1 hn.2
        · exact ih _ _ h1tail h2tail x hx2

theorem ewmGo_good (a : ℚ) (ha0 : 0 < a) (ha1 : a ≤ 1) :
    ∀ (xs : List F) (wa : F) (w : ℚ), (∀ x ∈ xs, ADX.GoodCell x) →
    ADX.GoodCell wa → 0 ≤ w →
    ∀ y ∈ ADX.ewmGo a wa w xs, ADX.GoodCell y := by
  intro xs
  induction xs with
  | nil => intro wa w _ _ _ y hy; simp [ADX.ewmGo] at hy
  | cons x xs ih =>
    intro wa w hxs hwa hw y hy
    have hx : ADX.GoodCell x := hxs x (by simp)
    have hxs2 : ∀ z ∈ xs, ADX.GoodCell z := fun z hz => hxs z (by simp [hz])
    have h1a : (0:ℚ) ≤ 1 - a := by linarith
    rw [ADX.ewmGo] at hy
    by_cases hnan : F.isNan wa
    · rw [if_pos hnan] at hy
      by_cases hxnan : F.isNan x
      · rw [if_pos hxnan] at hy
        rcases List.mem_cons.mp hy with heq | hy2
        · exact heq ▸ hwa
        · exact ih wa w hxs2 hwa hw y hy2
      · rw [if_neg hxnan] at hy
        rcases List.mem_cons.mp hy with heq | hy2
        · exact heq ▸ hx
        · exact ih x 1 hxs2 hx (by norm_num) y hy2
    · rw [if_neg hnan] at hy
      have hw2 : 0 ≤ w * (1 - a) := mul_nonneg hw h1a
      by_cases hxnan : F.isNan x
      · rw [if_pos hxnan] at hy
        rcases List.mem_cons.mp hy with heq | hy2
        · exact heq ▸ hwa
        · exact ih wa (w * (1 - a)) hxs2 hwa hw2 y hy2
      · rw [if_neg hxnan] at hy
        rcases hwa with hwn | ⟨u, hu, hu0, hu1⟩
        · rw [hwn] at hnan; simp [F.isNan] at hnan
        · rcases hx with hxn | ⟨v, hv, hv0, hv1⟩
          · rw [hxn] at hxnan; simp [F.isNan] at hxnan
          · subst hu hv
            have hden : 0 < w * (1 - a) + a := by linarith
            have hval : F.fdiv (F.add (F.mul (F.val (w * (1 - a))) (F.val u))
                (F.mul (F.val a) (F.val v))) (F.val (w * (1 - a) + a)) =
                F.val ((w * (1 - a) * u + a * v) / (w * (1 - a) + a)) := by
              rw [F_mul_val, F_mul_val, F_add_val, F.fdiv, F.qdiv,
                if_pos (ne_of_gt hden)]
            have hgood : ADX.GoodCell
                (F.val ((w * (1 - a) * u + a * v) / (w * (1 - a) + a))) := by
              right
              refine ⟨_, rfl, ?_, ?_⟩
              · have hnum : 0 ≤ w * (1 - a) * u + a * v := by
                  have := mul_nonneg hw2 hu0
                  have := mul_nonneg (le_of_lt ha0) hv0
                  linarith
                positivity
              · rw [div_le_iff hden]
                have h1 : w * (1 - a) * u ≤ w * (1 - a) * 100 :=
                  mul_le_mul_of_nonneg_left hu1 hw2
                have h2 : a * v ≤ a * 100 :=
                  mul_le_mul_of_nonneg_left hv1 (le_of_lt ha0)
                linarith
            rcases List.mem_cons.mp hy with heq | hy2
            · rw [heq, hval]
              exact hgood
            · rw [hval] at hy2
              exact ih _ 1 hxs2 (hval ▸ hgood) (by norm_num) y hy2

theorem diList_good (pds atr : List ℚ)
    (h : List.Forall₂ (fun x y => 0 ≤ x ∧ x ≤ y) pds atr) :
    ∀ x ∈ List.zipWith ADX.diCell pds atr, ADX.GoodCell x := by
  induction h with
  | nil => simp
  | cons hxy htail ih =>
    intro x hx
    simp only [List.zipWith_cons_cons] at hx
    rcases List.mem_cons.mp hx with heq | hx2
    · subst heq
      rcases diCell_spec _ _ hxy.1 hxy.2 with ⟨_, he⟩ | ⟨_, he, h0, h1⟩
      · rw [he]; left; rfl
      · rw [he]; right; exact ⟨_, rfl, h0, h1⟩
    · exact ih x hx2

theorem goodCell_fill0 (x : F) (h : ADX.GoodCell x) : F.isVal01 (F.fill0 x) = true := by
  rcases h with rfl | ⟨q, rfl, h0, h1⟩
  · show F.isVal01 (F.val 0) = true
    simp [F.isVal01]
  · show F.isVal01 (F.val q) = true
    simp [F.isVal01, h0, h1]

/-- C2 (amended): on every bar history whose bars are well formed (low <=
close <= high at every index), all values of the ADX, +DI and -DI series
returned by calculate_adx are ordinary numbers in [0, 100]: every 0/0 form
(zero smoothed true range or zero DI sum) resolves through NaN to 0 and no
returned value is NaN or infinite. -/
theorem claim_C2_theorem (bars : List ADX.Bar) (hwf : ∀ b ∈ bars, ADX.WFBar b) :
    ((ADX.calculateADX bars).1.all F.isVal01 = true) ∧
    ((ADX.calculateADX bars).2.1.all F.isVal01 = true) ∧
    ((ADX.calculateADX bars).2.2.all F.isVal01 = true) := by
  have hTR := trdm_bounds bars hwf
  have hP : List.Forall₂ (fun x y => 0 ≤ x ∧ x ≤ y)
      (ADX.posDMList bars) (ADX.trList bars) :=
    forall2_map_of (ADX.trdm bars) _ (fun t => t.2.1) (fun t => t.1) hTR
      (fun t ht => ⟨ht.2.1, ht.2.2.1⟩)
  have hN : List.Forall₂ (fun x y => 0 ≤ x ∧ x ≤ y)
      (ADX.negDMList bars) (ADX.trList bars) :=
    forall2_map_of (ADX.trdm bars) _ (fun t => t.2.2) (fun t => t.1) hTR
      (fun t ht => ⟨ht.2.2.2.1, ht.2.2.2.2⟩)
  have ha0 : (0:ℚ) ≤ ADX.alpha := by norm_num [ADX.alpha]
  have ha1 : ADX.alpha ≤ 1 := by norm_num [ADX.alpha]
  have hPS := wilder_bounds ADX.alpha ha0 ha1 _ _ hP
  have hNS := wilder_bounds ADX.alpha ha0 ha1 _ _ hN
  have hPD := diList_good _ _ hPS
  have hND := diList_good _ _ hNS
  have hDX := dxList_good _ _ _ hPS hNS
  have hADX : ∀ y ∈ ADX.ewmF ADX.alpha
      (List.zipWith ADX.dxCell
        (List.zipWith ADX.diCell (ADX.wilder ADX.alpha (ADX.posDMList bars))
          (ADX.wilder ADX.alpha (ADX.trList bars)))
        (List.zipWith ADX.diCell (ADX.wilder ADX.alpha (ADX.negDMList bars))
          (ADX.wilder ADX.alpha (ADX.trList bars)))), ADX.GoodCell y := by
    rw [ADX.ewmF]
    exact ewmGo_good ADX.alpha (by norm_num [ADX.alpha]) ha1 _ F.nan 1 hDX
      (Or.inl rfl) (by norm_num)
  have hEq : ADX.calculateADX bars =
      ((ADX.ewmF ADX.alpha
        (List.zipWith ADX.dxCell
          (List.zipWith ADX.diCell (ADX.wilder ADX.alpha (ADX.posDMList bars))
            (ADX.wilder ADX.alpha (ADX.trList bars)))
          (List.zipWith ADX.diCell (ADX.wilder ADX.alpha (ADX.negDMList bars))
            (ADX.wilder ADX.alpha (ADX.trList bars))))).map F.fill0,
       (List.zipWith ADX.diCell (ADX.wilder ADX.alpha (ADX.posDMList bars))
         (ADX.wilder ADX.alpha (ADX.trList bars))).map F.fill0,
       (List.zipWith ADX.diCell (ADX.wilder ADX.alpha (ADX.negDMList bars))
         (ADX.wilder ADX.alpha (ADX.trList bars))).map F.fill0) := rfl
  rw [hEq]
  refine ⟨?_, ?_, ?_⟩
  · rw [List.all_eq_true]
    intro x hx
    obtain ⟨y, hy, rfl⟩ := List.mem_map.mp hx
    exact goodCell_fill0 y (hADX y hy)
  · rw [List.all_eq_true]
    intro x hx
    obtain ⟨y, hy, rfl⟩ := List.mem_map.mp hx
    exact goodCell_fill0 y (hPD y hy)
  · rw [List.all_eq_true]
    intro x hx
    obtain ⟨y, hy, rfl⟩ := List.mem_map.mp hx
    exact goodCell_fill0 y (hND y hy)

theorem claim_C2_witness :
    ((ADX.calculateADX c2WitBars).1.all F.isVal01 = true) ∧
    ((ADX.calculateADX c2WitBars).2.1.all F.isVal01 = true) ∧
    ((ADX.calculateADX c2WitBars).2.2.all F.isVal01 = true) :=
  claim_C2_theorem c2WitBars (by
    intro b hb
    simp only [c2WitBars, List.mem_singleton] at hb
    subst hb
    constructor <;> norm_num [ADX.WFBar])

/-- C2: on the ill-formed two-bar history high=[-100,0], low=[-100,0],
close=[0,0] (equal-length sequences, but the first close lies above its own
high) the returned +DI series is [0, +inf]: the second cell divides a
positive smoothed +DM by a zero smoothed true range, the resulting infinity
survives fillna(0), and it is neither in [0,100] nor finite. -/
theorem claim_C2_counterexample :
    (ADX.calculateADX c2Bars).2.1 = [F.val 0, F.inf] ∧
    ((ADX.calculateADX c2Bars).2.1.all F.isVal01) = false := by
  have htrdm : ADX.trdm c2Bars = [((0:ℚ), (0:ℚ), (0:ℚ)), ((0:ℚ), (100:ℚ), (0:ℚ))] := by
    rw [c2Bars, ADX.trdm, ADX.trdmGo, ADX.trdmGo]
    norm_num
  have hpdm : ADX.posDMList c2Bars = [0, 100] := by
    rw [ADX.posDMList, htrdm]
    rfl
  have htr : ADX.trList c2Bars = [0, 0] := by
    rw [ADX.trList, htrdm]
    rfl
  have hatr : ADX.wilder ADX.alpha (ADX.trList c2Bars) = [0, 0] := by
    rw [htr, ADX.wilder, ADX.wilderGo, ADX.wilderGo]
    norm_num
  have hpds : ADX.wilder ADX.alpha (ADX.posDMList c2Bars) = [0, 50/7] := by
    rw [hpdm, ADX.wilder, ADX.wilderGo, ADX.wilderGo]
    norm_num [ADX.alpha]
  have hdi : List.zipWith ADX.diCell (ADX.wilder ADX.alpha (ADX.posDMList c2Bars))
      (ADX.wilder ADX.alpha (ADX.trList c2Bars)) = [F.nan, F.inf] := by
    rw [hpds, hatr]
    simp only [List.zipWith_cons_cons, List.zipWith_nil_right]
    norm_num [ADX.diCell, F.qdiv]
  have h1 : (ADX.calculateADX c2Bars).2.1 = [F.val 0, F.inf] := by
    have hEq : (ADX.calculateADX c2Bars).2.1 =
        (List.zipWith ADX.diCell (ADX.wilder ADX.alpha (ADX.posDMList c2Bars))
          (ADX.wilder ADX.alpha (ADX.trList c2Bars))).map F.fill0 := rfl
    rw [hEq, hdi]
    rfl
  refine ⟨h1, ?_⟩
  rw [h1]
  rfl

theorem desc_le_trans : ∀ (a b c : ℚ), (fun a b : ℚ => decide (b ≤ a)) a b = true →
    (fun a b : ℚ => decide (b ≤ a)) b c = true →
    (fun a b : ℚ => decide (b ≤ a)) a c = true := by
  intro a b c h1 h2
  simp only [decide_eq_true_eq] at h1 h2 ⊢
  exact le_trans h2 h1

theorem desc_le_total : ∀ (a b : ℚ), (fun a b : ℚ => decide (b ≤ a)) a b = false →
    (fun a b : ℚ => decide (b ≤ a)) b a = true := by
  intro a b h
  simp only [decide_eq_false_iff_not] at h
  simp only [decide_eq_true_eq]
  exact le_of_not_le h

theorem asc_le_trans : ∀ (a b c : ℚ), (fun a b : ℚ => decide (a ≤ b)) a b = true →
    (fun a b : ℚ => decide (a ≤ b)) b c = true →
    (fun a b : ℚ => decide (a ≤ b)) a c = true := by
  intro a b c h1 h2
  simp only [decide_eq_true_eq] at h1 h2 ⊢
  exact le_trans h1 h2

theorem asc_le_total : ∀ (a b : ℚ), (fun a b : ℚ => decide (a ≤ b)) a b = false →
    (fun a b : ℚ => decide (a ≤ b)) b a = true := by
  intro a b h
  simp only [decide_eq_false_iff_not] at h
  simp only [decide_eq_true_eq]
  exact le_of_not_le h

theorem pySortDesc_pairwise_ge (l : List ℚ) :
    (pySortDesc l).Pairwise (fun a b => a ≥ b) := by
  have := pySortBy_pairwise (fun a b : ℚ => decide (b ≤ a)) desc_le_trans desc_le_total l
  exact this.imp (fun h => by simpa [decide_eq_true_eq] using h)

theorem pySortAsc_pairwise_le (l : List ℚ) :
    (pySortAsc l).Pairwise (fun a b => a ≤ b) := by
  have := pySortBy_pairwise (fun a b : ℚ => decide (a ≤ b)) asc_le_trans asc_le_total l
  exact this.imp (fun h => by simpa [decide_eq_true_eq] using h)

theorem pySortDesc_eq_self (l : List ℚ) (hl : l.Pairwise (fun a b => b ≤ a)) :
    pySortDesc l = l :=
  pySortBy_eq_of_pairwise _ l (hl.imp (fun h => decide_eq_true h))

theorem pySortAsc_eq_self (l : List ℚ) (hl : l.Pairwise (fun a b => a ≤ b)) :
    pySortAsc l = l :=
  pySortBy_eq_of_pairwise _ l (hl.imp (fun h => decide_eq_true h))

theorem buyCandidates_no_snap (count : ℕ) (center width low : ℚ)
    (hsnap : ∀ i < count, Ranging.isNearKeyLevel (center - width * (i + 1)) = none)
    (hkeep : ∀ i < count, center - width * (i + 1) ≥ low * (97/100)) :
    Ranging.buyCandidates count center width low =
      (List.range count).map (fun (i : ℕ) => center - width * ((i : ℚ) + 1)) := by
  unfold Ranging.buyCandidates
  have hmap : (List.range count).map
        (fun (i : ℕ) => Ranging.snapBuy width (center - width * ((i : ℚ) + 1))) =
      (List.range count).map (fun (i : ℕ) => center - width * ((i : ℚ) + 1)) := by
    apply List.map_congr_left
    intro i hi
    have hi2 := List.mem_range.mp hi
    unfold Ranging.snapBuy
    rw [hsnap i hi2]
  rw [hmap, List.filter_eq_self.mpr]
  intro a ha
  simp only [List.mem_map, List.mem_range] at ha
  obtain ⟨i, hi, rfl⟩ := ha
  exact decide_eq_true (hkeep i hi)

theorem sellCandidates_no_snap (count : ℕ) (center width high : ℚ)
    (hsnap : ∀ i < count, Ranging.isNearKeyLevel (center + width * (i + 1)) = none)
    (hkeep : ∀ i < count, center + width * (i + 1) ≤ high * (103/100)) :
    Ranging.sellCandidates count center width high =
      (List.range count).map (fun (i : ℕ) => center + width * ((i : ℚ) + 1)) := by
  unfold Ranging.sellCandidates
  have hmap : (List.range count).map
        (fun (i : ℕ) => Ranging.snapSell width (center + width * ((i : ℚ) + 1))) =
      (List.range count).map (fun (i : ℕ) => center + width * ((i : ℚ) + 1)) := by
    apply List.map_congr_left
    intro i hi
    have hi2 := List.mem_range.mp hi
    unfold Ranging.snapSell
    rw [hsnap i hi2]
  rw [hmap, List.filter_eq_self.mpr]
  intro a ha
  simp only [List.mem_map, List.mem_range] at ha
  obtain ⟨i, hi, rfl⟩ := ha
  exact decide_eq_true (hkeep i hi)

theorem pairwise_buy_raw (count : ℕ) (center width : ℚ) (hw : 0 ≤ width) :
    ((List.range count).map (fun (i : ℕ) => center - width * ((i : ℚ) + 1))).Pairwise
      (fun a b => b ≤ a) := by
  rw [List.pairwise_map]
  apply (List.pairwise_lt_range count).imp
  intro i j hij
  have hij2 : (i : ℚ) ≤ j := by exact_mod_cast le_of_lt hij
  have : width * ((i : ℚ) + 1) ≤ width * ((j : ℚ) + 1) :=
    mul_le_mul_of_nonneg_left (by linarith) hw
  linarith

theorem pairwise_sell_raw (count : ℕ) (center width : ℚ) (hw : 0 ≤ width) :
    ((List.range count).map (fun (i : ℕ) => center + width * ((i : ℚ) + 1))).Pairwise
      (fun a b => a ≤ b) := by
  rw [List.pairwise_map]
  apply (List.pairwise_lt_range count).imp
  intro i j hij
  have hij2 : (i : ℚ) ≤ j := by exact_mod_cast le_of_lt hij
  have : width * ((i : ℚ) + 1) ≤ width * ((j : ℚ) + 1) :=
    mul_le_mul_of_nonneg_left (by linarith) hw
  linarith

theorem chain_buy_raw (count : ℕ) (center width : ℚ) (hw : 0 < width) :
    List.Chain' (fun a b => a - b = width ∧ b < a)
      ((List.range count).map (fun (i : ℕ) => center - width * ((i : ℚ) + 1))) := by
  rw [List.chain'_map]
  cases count with
  | zero => simp
  | succ n =>
    rw [List.chain'_range_succ]
    intro m hm
    constructor
    · push_cast
      ring
    · have : width * ((m : ℚ) + 1) < width * ((m : ℚ) + 1 + 1) := by
        apply mul_lt_mul_of_pos_left _ hw
        linarith
      push_cast
      push_cast at this
      linarith

theorem chain_sell_raw (count : ℕ) (center width : ℚ) (hw : 0 < width) :
    List.Chain' (fun a b => b - a = width ∧ a < b)
      ((List.range count).map (fun (i : ℕ) => center + width * ((i : ℚ) + 1))) := by
  rw [List.chain'_map]
  cases count with
  | zero => simp
  | succ n =>
    rw [List.chain'_range_succ]
    intro m hm
    constructor
    · push_cast
      ring
    · have : width * ((m : ℚ) + 1) < width * ((m : ℚ) + 1 + 1) := by
        apply mul_lt_mul_of_pos_left _ hw
        linarith
      push_cast
      push_cast at this
      linarith

theorem buildDynamicGrid_eq (df : Ind.IndFrame) (hlen : ¬ df.bars.length < 40)
    (tr : ℚ) (gc : ℕ) (gw : ℚ) (hG : Ranging.geometryOf df = (tr, gc, gw)) :
    Ranging.buildDynamicGrid df none =
      (if (Ranging.buyCandidates gc (Ranging.currentPriceOf df) gw
            (Ranging.recentLowOf df)).length < 4 ∨
          (Ranging.sellCandidates gc (Ranging.currentPriceOf df) gw
            (Ranging.recentHighOf df)).length < 4 then none
       else some
        { buy_levels := pySortDesc (Ranging.buyCandidates gc (Ranging.currentPriceOf df) gw
            (Ranging.recentLowOf df))
          sell_levels := pySortAsc (Ranging.sellCandidates gc (Ranging.currentPriceOf df) gw
            (Ranging.recentHighOf df))
          grid_width := gw
          total_range := tr
          center := Ranging.currentPriceOf df
          high := Ranging.recentHighOf df
          low := Ranging.recentLowOf df
          volatility := Ranging.detectVolatilityRegime df
          atr := Ranging.aOptOf df }) := by
  rw [Ranging.geometryOf] at hG
  unfold Ranging.buildDynamicGrid
  rw [if_neg hlen]
  simp only [hG, Option.getD_none]

theorem buyCandidates_snap_free (count : ℕ) (center width low : ℚ)
    (hsnap : ∀ i < count, Ranging.isNearKeyLevel (center - width * (i + 1)) = none) :
    Ranging.buyCandidates count center width low =
      ((List.range count).map (fun (i : ℕ) => center - width * ((i : ℚ) + 1))).filter
        (fun bp => bp ≥ low * (97/100)) := by
  unfold Ranging.buyCandidates
  have hmap : (List.range count).map
        (fun (i : ℕ) => Ranging.snapBuy width (center - width * ((i : ℚ) + 1))) =
      (List.range count).map (fun (i : ℕ) => center - width * ((i : ℚ) + 1)) := by
    apply List.map_congr_left
    intro i hi
    have hi2 := List.mem_range.mp hi
    unfold Ranging.snapBuy
    rw [hsnap i hi2]
  rw [hmap]

theorem sellCandidates_snap_free (count : ℕ) (center width high : ℚ)
    (hsnap : ∀ i < count, Ranging.isNearKeyLevel (center + width * (i + 1)) = none) :
    Ranging.sellCandidates count center width high =
      ((List.range count).map (fun (i : ℕ) => center + width * ((i : ℚ) + 1))).filter
        (fun sp => sp ≤ high * (103/100)) := by
  unfold Ranging.sellCandidates
  have hmap : (List.range count).map
        (fun (i : ℕ) => Ranging.snapSell width (center + width * ((i : ℚ) + 1))) =
      (List.range count).map (fun (i : ℕ) => center + width * ((i : ℚ) + 1)) := by
    apply List.map_congr_left
    intro i hi
    have hi2 := List.mem_range.mp hi
    unfold Ranging.snapSell
    rw [hsnap i hi2]
  rw [hmap]

theorem chain_filter_ge (thr width : ℚ) :
    ∀ l : List ℚ, l.Pairwise (fun a b => b ≤ a) →
      l.Chain' (fun a b => a - b = width ∧ b < a) →
      (l.filter (fun x => x ≥ thr)).Chain' (fun a b => a - b = width ∧ b < a) := by
  intro l
  induction l with
  | nil =>
    intro _ _
    simp
  | cons x xs ih =>
    intro hp hc
    rcases List.pairwise_cons.mp hp with ⟨hx, hxs⟩
    rcases List.chain'_cons'.mp hc with ⟨hhead, htail⟩
    rw [List.filter_cons]
    by_cases hpx : x ≥ thr
    · rw [if_pos (by simpa using hpx)]
      refine List.chain'_cons'.mpr ⟨?_, ih hxs htail⟩
      intro y hy
      cases xs with
      | nil => simp at hy
      | cons z zs =>
        rw [List.filter_cons] at hy
        by_cases hz : z ≥ thr
        · rw [if_pos (by simpa using hz)] at hy
          simp only [List.head?_cons, Option.mem_def, Option.some.injEq] at hy
          subst hy
          exact hhead z rfl
        · rw [if_neg (by simpa using hz)] at hy
          have hnil : zs.filter (fun b => decide (b ≥ thr)) = [] := by
            rw [List.filter_eq_nil_iff]
            intro a ha
            have h1 : a ≤ z := (List.pairwise_cons.mp hxs).1 a ha
            simp only [decide_eq_true_eq]
            intro h2
            exact hz (le_trans h2 h1)
          rw [hnil] at hy
          simp at hy
    · rw [if_neg (by simpa using hpx)]
      have hnil : xs.filter (fun b => decide (b ≥ thr)) = [] := by
        rw [List.filter_eq_nil_iff]
        intro a ha
        have h1 : a ≤ x := hx a ha
        simp only [decide_eq_true_eq]
        intro h2
        exact hpx (le_trans h2 h1)
      rw [hnil]
      simp

theorem chain_filter_le (thr width : ℚ) :
    ∀ l : List ℚ, l.Pairwise (fun a b => a ≤ b) →
      l.Chain' (fun a b => b - a = width ∧ a < b) →
      (l.filter (fun x => x ≤ thr)).Chain' (fun a b => b - a = width ∧ a < b) := by
  intro l
  induction l with
  | nil =>
    intro _ _
    simp
  | cons x xs ih =>
    intro hp hc
    rcases List.pairwise_cons.mp hp with ⟨hx, hxs⟩
    rcases List.chain'_cons'.mp hc with ⟨hhead, htail⟩
    rw [List.filter_cons]
    by_cases hpx : x ≤ thr
    · rw [if_pos (by simpa using hpx)]
      refine List.chain'_cons'.mpr ⟨?_, ih hxs htail⟩
      intro y hy
      cases xs with
      | nil => simp at hy
      | cons z zs =>
        rw [List.filter_cons] at hy
        by_cases hz : z ≤ thr
        · rw [if_pos (by simpa using hz)] at hy
          simp only [List.head?_cons, Option.mem_def, Option.some.injEq] at hy
          subst hy
          exact hhead z rfl
        · rw [if_neg (by simpa using hz)] at hy
          have hnil : zs.filter (fun b => decide (b ≤ thr)) = [] := by
            rw [List.filter_eq_nil_iff]
            intro a ha
            have h1 : z ≤ a := (List.pairwise_cons.mp hxs).1 a ha
            simp only [decide_eq_true_eq]
            intro h2
            exact hz (le_trans h1 h2)
          rw [hnil] at hy
          simp at hy
    · rw [if_neg (by simpa using hpx)]
      have hnil : xs.filter (fun b => decide (b ≤ thr)) = [] := by
        rw [List.filter_eq_nil_iff]
        intro a ha
        have h1 : x ≤ a := hx a ha
        simp only [decide_eq_true_eq]
        intro h2
        exact hpx (le_trans h1 h2)
      rw [hnil]
      simp

/-- C5: as stated the claim is false — key-level snapping can move two raw
levels onto the same snapped price, so the sorted buy_levels need be neither
strictly decreasing nor evenly spaced (see the counterexample).  Amended:
whenever build_dynamic_grid returns a grid, buy_levels is weakly decreasing
and sell_levels weakly increasing; and when the computed grid width is
positive and no candidate level is snapped by a key level, buy_levels is
strictly decreasing, sell_levels strictly increasing, and consecutive levels
on each side differ by exactly the returned grid_width — the range clipping
only drops a suffix of each monotone ladder, so clipped levels never break
strictness or spacing. -/
theorem claim_C5_theorem (df : Ind.IndFrame) (g : Ranging.Grid)
    (hg : Ranging.buildDynamicGrid df none = some g) :
    (g.buy_levels.Pairwise (fun a b => b ≤ a) ∧
     g.sell_levels.Pairwise (fun a b => a ≤ b)) ∧
    (0 < (Ranging.geometryOf df).2.2 →
      (∀ i < (Ranging.geometryOf df).2.1,
        Ranging.isNearKeyLevel
          (Ranging.currentPriceOf df - (Ranging.geometryOf df).2.2 * (i + 1)) = none ∧
        Ranging.isNearKeyLevel
          (Ranging.currentPriceOf df + (Ranging.geometryOf df).2.2 * (i + 1)) = none) →
      g.grid_width = (Ranging.geometryOf df).2.2 ∧
      List.Chain' (fun a b => a - b = g.grid_width ∧ b < a) g.buy_levels ∧
      List.Chain' (fun a b => b - a = g.grid_width ∧ a < b) g.sell_levels) := by
  by_cases hlen : df.bars.length < 40
  · rw [Ranging.buildDynamicGrid, if_pos hlen] at hg
    exact absurd hg (by simp)
  · rcases hG : Ranging.geometryOf df with ⟨tr, gc, gw⟩
    rw [buildDynamicGrid_eq df hlen tr gc gw hG] at hg
    by_cases hc : (Ranging.buyCandidates gc (Ranging.currentPriceOf df) gw
          (Ranging.recentLowOf df)).length < 4 ∨
        (Ranging.sellCandidates gc (Ranging.currentPriceOf df) gw
          (Ranging.recentHighOf df)).length < 4
    · rw [if_pos hc] at hg
      exact absurd hg (by simp)
    · rw [if_neg hc] at hg
      have hge := (Option.some.inj hg).symm
      subst hge
      refine ⟨⟨pySortDesc_pairwise_ge _, pySortAsc_pairwise_le _⟩, ?_⟩
      intro hw hcond
      have hbuys := buyCandidates_snap_free gc (Ranging.currentPriceOf df) gw
        (Ranging.recentLowOf df) (fun i hi => (hcond i hi).1)
      have hsells := sellCandidates_snap_free gc (Ranging.currentPriceOf df) gw
        (Ranging.recentHighOf df) (fun i hi => (hcond i hi).2)
      refine ⟨rfl, ?_, ?_⟩
      · show List.Chain' _ (pySortDesc _)
        rw [hbuys, pySortDesc_eq_self _
          ((pairwise_buy_raw gc _ gw (le_of_lt hw)).filter _)]
        exact chain_filter_ge _ gw _ (pairwise_buy_raw gc _ gw (le_of_lt hw))
          (chain_buy_raw gc _ gw hw)
      · show List.Chain' _ (pySortAsc _)
        rw [hsells, pySortAsc_eq_self _
          ((pairwise_sell_raw gc _ gw (le_of_lt hw)).filter _)]
        exact chain_filter_le _ gw _ (pairwise_sell_raw gc _ gw (le_of_lt hw))
          (chain_sell_raw gc _ gw hw)

theorem foldl_max_replicate (m : ℕ) (x : ℚ) : (List.replicate m x).foldl max x = x := by
  induction m with
  | zero => rfl
  | succ k ih =>
    rw [List.replicate_succ, List.foldl_cons, max_self]
    exact ih

theorem foldl_min_replicate (m : ℕ) (x : ℚ) : (List.replicate m x).foldl min x = x := by
  induction m with
  | zero => rfl
  | succ k ih =>
    rw [List.replicate_succ, List.foldl_cons, min_self]
    exact ih

theorem qListMax_replicate (n : ℕ) (x : ℚ) :
    Ranging.qListMax (List.replicate (n + 1) x) = x := by
  rw [List.replicate_succ]
  show (List.replicate n x).foldl max x = x
  exact foldl_max_replicate n x

theorem qListMin_replicate (n : ℕ) (x : ℚ) :
    Ranging.qListMin (List.replicate (n + 1) x) = x := by
  rw [List.replicate_succ]
  show (List.replicate n x).foldl min x = x
  exact foldl_min_replicate n x

theorem getLast_replicate {α : Type} (n : ℕ) (x : α) :
    (List.replicate (n + 1) x).getLast? = some x := by
  induction n with
  | zero => rfl
  | succ k ih =>
    rw [List.replicate_succ, List.replicate_succ, List.getLast?_cons_cons,
      ← List.replicate_succ]
    exact ih

theorem isNearKeyLevel_eq (p : ℚ) :
    Ranging.isNearKeyLevel p =
      (if |p - 1900| < 5 then some 1900
       else if |p - 1950| < 5 then some 1950
       else if |p - 2000| < 5 then some 2000
       else if |p - 2050| < 5 then some 2050
       else if |p - 2100| < 5 then some 2100
       else none) := by
  rw [Ranging.isNearKeyLevel, Ranging.gold_key_levels]
  by_cases h1 : |p - 1900| < 5
  · rw [List.find?_cons_of_pos _ (by simpa using h1), if_pos h1]
  · rw [List.find?_cons_of_neg _ (by simpa using h1), if_neg h1]
    by_cases h2 : |p - 1950| < 5
    · rw [List.find?_cons_of_pos _ (by simpa using h2), if_pos h2]
    · rw [List.find?_cons_of_neg _ (by simpa using h2), if_neg h2]
      by_cases h3 : |p - 2000| < 5
      · rw [List.find?_cons_of_pos _ (by simpa using h3), if_pos h3]
      · rw [List.find?_cons_of_neg _ (by simpa using h3), if_neg h3]
        by_cases h4 : |p - 2050| < 5
        · rw [List.find?_cons_of_pos _ (by simpa using h4), if_pos h4]
        · rw [List.find?_cons_of_neg _ (by simpa using h4), if_neg h4]
          by_cases h5 : |p - 2100| < 5
          · rw [List.find?_cons_of_pos _ (by simpa using h5), if_pos h5]
          · rw [List.find?_cons_of_neg _ (by simpa using h5), if_neg h5]
            rfl

theorem nearKey_none_mid (p : ℚ) (h1 : 1955 ≤ p) (h2 : p ≤ 1995) :
    Ranging.isNearKeyLevel p = none := by
  rw [isNearKeyLevel_eq,
    if_neg (show ¬|p - 1900| < 5 by rw [abs_lt]; rintro ⟨a, b⟩; linarith),
    if_neg (show ¬|p - 1950| < 5 by rw [abs_lt]; rintro ⟨a, b⟩; linarith),
    if_neg (show ¬|p - 2000| < 5 by rw [abs_lt]; rintro ⟨a, b⟩; linarith),
    if_neg (show ¬|p - 2050| < 5 by rw [abs_lt]; rintro ⟨a, b⟩; linarith),
    if_neg (show ¬|p - 2100| < 5 by rw [abs_lt]; rintro ⟨a, b⟩; linarith)]

theorem nearKey_none_high (p : ℚ) (h1 : 2005 ≤ p) (h2 : p ≤ 2045) :
    Ranging.isNearKeyLevel p = none := by
  rw [isNearKeyLevel_eq,
    if_neg (show ¬|p - 1900| < 5 by rw [abs_lt]; rintro ⟨a, b⟩; linarith),
    if_neg (show ¬|p - 1950| < 5 by rw [abs_lt]; rintro ⟨a, b⟩; linarith),
    if_neg (show ¬|p - 2000| < 5 by rw [abs_lt]; rintro ⟨a, b⟩; linarith),
    if_neg (show ¬|p - 2050| < 5 by rw [abs_lt]; rintro ⟨a, b⟩; linarith),
    if_neg (show ¬|p - 2100| < 5 by rw [abs_lt]; rintro ⟨a, b⟩; linarith)]

theorem nearKey_none_far (p : ℚ) (h1 : 2105 ≤ p) :
    Ranging.isNearKeyLevel p = none := by
  rw [isNearKeyLevel_eq,
    if_neg (show ¬|p - 1900| < 5 by rw [abs_lt]; rintro ⟨a, b⟩; linarith),
    if_neg (show ¬|p - 1950| < 5 by rw [abs_lt]; rintro ⟨a, b⟩; linarith),
    if_neg (show ¬|p - 2000| < 5 by rw [abs_lt]; rintro ⟨a, b⟩; linarith),
    if_neg (show ¬|p - 2050| < 5 by rw [abs_lt]; rintro ⟨a, b⟩; linarith),
    if_neg (show ¬|p - 2100| < 5 by rw [abs_lt]; rintro ⟨a, b⟩; linarith)]

theorem nearKey_some_2000 (p : ℚ) (h1 : 1995 < p) (h2 : p < 2005) :
    Ranging.isNearKeyLevel p = some 2000 := by
  rw [isNearKeyLevel_eq,
    if_neg (show ¬|p - 1900| < 5 by rw [abs_lt]; rintro ⟨a, b⟩; linarith),
    if_neg (show ¬|p - 1950| < 5 by rw [abs_lt]; rintro ⟨a, b⟩; linarith),
    if_pos (show |p - 2000| < 5 by rw [abs_lt]; constructor <;> linarith)]

theorem snapBuy_of_none (w raw : ℚ) (h : Ranging.isNearKeyLevel raw = none) :
    Ranging.snapBuy w raw = raw := by
  unfold Ranging.snapBuy
  rw [h]

theorem snapBuy_of_some (w raw k : ℚ) (h : Ranging.isNearKeyLevel raw = some k) :
    Ranging.snapBuy w raw = k - w * (3/10) := by
  unfold Ranging.snapBuy
  rw [h]

theorem snapSell_of_none (w raw : ℚ) (h : Ranging.isNearKeyLevel raw = none) :
    Ranging.snapSell w raw = raw := by
  unfold Ranging.snapSell
  rw [h]

theorem snapSell_of_some (w raw k : ℚ) (h : Ranging.isNearKeyLevel raw = some k) :
    Ranging.snapSell w raw = k + w * (3/10) := by
  unfold Ranging.snapSell
  rw [h]

theorem gridGeometry_c5 :
    Ranging.gridGeometry 25 (some 2) Ranging.VolRegime.NORMAL = (20, 10, 2) := by
  norm_num [Ranging.gridGeometry, Ranging.grid_levels, max_def, min_def]

theorem c5_recentHigh : Ranging.recentHighOf c5Frame = 4025/2 := by
  rw [Ranging.recentHighOf,
    show c5Frame.bars = List.replicate 40 (⟨4025/2, 3975/2, 2000⟩ : ADX.Bar) from rfl,
    List.map_replicate, Ind.pyTail, List.length_replicate]
  exact qListMax_replicate 39 _

theorem c5_recentLow : Ranging.recentLowOf c5Frame = 3975/2 := by
  rw [Ranging.recentLowOf,
    show c5Frame.bars = List.replicate 40 (⟨4025/2, 3975/2, 2000⟩ : ADX.Bar) from rfl,
    List.map_replicate, Ind.pyTail, List.length_replicate]
  exact qListMin_replicate 39 _

theorem c5_currentPrice : Ranging.currentPriceOf c5Frame = 2000 := by
  rw [Ranging.currentPriceOf,
    show c5Frame.bars = List.replicate 40 (⟨4025/2, 3975/2, 2000⟩ : ADX.Bar) from rfl,
    List.map_replicate, getLast_replicate 39]
  rfl

theorem c5_aOpt : Ranging.aOptOf c5Frame = some 2 := by
  rw [Ranging.aOptOf,
    show c5Frame.ATR = List.replicate 40 (F.val 2) from rfl,
    getLast_replicate 39]
  rfl

theorem c5_vol : Ranging.detectVolatilityRegime c5Frame = Ranging.VolRegime.NORMAL := by
  rw [Ranging.detectVolatilityRegime, if_pos (by decide)]

theorem c5_geometry : Ranging.geometryOf c5Frame = (20, 10, 2) := by
  rw [Ranging.geometryOf, c5_recentHigh, c5_recentLow, c5_aOpt, c5_vol,
    show (4025/2 - 3975/2 : ℚ) = 25 from by norm_num]
  exact gridGeometry_c5

theorem c5_buys : Ranging.buyCandidates 10 2000 2 (3975/2) =
    [9997/5, 9997/5, 1994, 1992, 1990, 1988, 1986, 1984, 1982, 1980] := by
  rw [Ranging.buyCandidates,
    show List.range 10 = [0, 1, 2, 3, 4, 5, 6, 7, 8, 9] from by decide]
  simp only [List.map]
  norm_num
  rw [snapBuy_of_some 2 1998 2000 (nearKey_some_2000 1998 (by norm_num) (by norm_num)),
    snapBuy_of_some 2 1996 2000 (nearKey_some_2000 1996 (by norm_num) (by norm_num)),
    snapBuy_of_none 2 1994 (nearKey_none_mid 1994 (by norm_num) (by norm_num)),
    snapBuy_of_none 2 1992 (nearKey_none_mid 1992 (by norm_num) (by norm_num)),
    snapBuy_of_none 2 1990 (nearKey_none_mid 1990 (by norm_num) (by norm_num)),
    snapBuy_of_none 2 1988 (nearKey_none_mid 1988 (by norm_num) (by norm_num)),
    snapBuy_of_none 2 1986 (nearKey_none_mid 1986 (by norm_num) (by norm_num)),
    snapBuy_of_none 2 1984 (nearKey_none_mid 1984 (by norm_num) (by norm_num)),
    snapBuy_of_none 2 1982 (nearKey_none_mid 1982 (by norm_num) (by norm_num)),
    snapBuy_of_none 2 1980 (nearKey_none_mid 1980 (by norm_num) (by norm_num)),
    show (2000 : ℚ) - 2 * (3/10) = 9997/5 from by norm_num]
  exact List.filter_eq_self.mpr (by
    intro a ha
    simp only [List.mem_cons, List.not_mem_nil, or_false] at ha
    rcases ha with rfl | rfl | rfl | rfl | rfl | rfl | rfl | rfl | rfl | rfl <;>
      exact decide_eq_true (by norm_num))

theorem c5_sells : Ranging.sellCandidates 10 2000 2 (4025/2) =
    [10003/5, 10003/5, 2006, 2008, 2010, 2012, 2014, 2016, 2018, 2020] := by
  rw [Ranging.sellCandidates,
    show List.range 10 = [0, 1, 2, 3, 4, 5, 6, 7, 8, 9] from by decide]
  simp only [List.map]
  norm_num
  rw [snapSell_of_some 2 2002 2000 (nearKey_some_2000 2002 (by norm_num) (by norm_num)),
    snapSell_of_some 2 2004 2000 (nearKey_some_2000 2004 (by norm_num) (by norm_num)),
    snapSell_of_none 2 2006 (nearKey_none_high 2006 (by norm_num) (by norm_num)),
    snapSell_of_none 2 2008 (nearKey_none_high 2008 (by norm_num) (by norm_num)),
    snapSell_of_none 2 2010 (nearKey_none_high 2010 (by norm_num) (by norm_num)),
    snapSell_of_none 2 2012 (nearKey_none_high 2012 (by norm_num) (by norm_num)),
    snapSell_of_none 2 2014 (nearKey_none_high 2014 (by norm_num) (by norm_num)),
    snapSell_of_none 2 2016 (nearKey_none_high 2016 (by norm_num) (by norm_num)),
    snapSell_of_none 2 2018 (nearKey_none_high 2018 (by norm_num) (by norm_num)),
    snapSell_of_none 2 2020 (nearKey_none_high 2020 (by norm_num) (by norm_num)),
    show (2000 : ℚ) + 2 * (3/10) = 10003/5 from by norm_num]
  exact List.filter_eq_self.mpr (by
    intro a ha
    simp only [List.mem_cons, List.not_mem_nil, or_false] at ha
    rcases ha with rfl | rfl | rfl | rfl | rfl | rfl | rfl | rfl | rfl | rfl <;>
      exact decide_eq_true (by norm_num))

theorem c5_buy_sorted :
    pySortDesc [9997/5, 9997/5, 1994, 1992, 1990, 1988, 1986, 1984, 1982, 1980] =
      [9997/5, 9997/5, 1994, 1992, 1990, 1988, 1986, 1984, 1982, 1980] :=
  pySortDesc_eq_self _ (by norm_num [List.pairwise_cons, List.forall_mem_cons])

theorem c5_sell_sorted :
    pySortAsc [10003/5, 10003/5, 2006, 2008, 2010, 2012, 2014, 2016, 2018, 2020] =
      [10003/5, 10003/5, 2006, 2008, 2010, 2012, 2014, 2016, 2018, 2020] :=
  pySortAsc_eq_self _ (by norm_num [List.pairwise_cons, List.forall_mem_cons])

/-- C5 counterexample: on 40 identical bars around the key level 2000 with ATR
2, build_dynamic_grid returns a grid whose first two buy levels are both
1999.4 (the raw levels 1998 and 1996 both snap to 2000 - 0.3*2), so buy_levels
is not strictly decreasing and consecutive buy levels are not spaced by
grid_width; sell_levels likewise starts with two copies of 2000.6. -/
theorem claim_C5_counterexample :
    Ranging.buildDynamicGrid c5Frame none = some c5Grid ∧
    ¬ List.Chain' (fun a b => b < a) c5Grid.buy_levels ∧
    ¬ List.Chain' (fun a b => a - b = c5Grid.grid_width) c5Grid.buy_levels ∧
    ¬ List.Chain' (fun a b => a < b) c5Grid.sell_levels := by
  refine ⟨?_, ?_, ?_, ?_⟩
  · rw [buildDynamicGrid_eq c5Frame (by decide) 20 10 2 c5_geometry,
      c5_currentPrice, c5_recentLow, c5_recentHigh, c5_vol, c5_aOpt, c5_buys, c5_sells,
      c5_buy_sorted, c5_sell_sorted, if_neg (by decide)]
    rfl
  · intro h
    exact absurd (List.chain'_cons.mp h).1 (lt_irrefl _)
  · intro h
    have h1 := (List.chain'_cons.mp h).1
    rw [show c5Grid.grid_width = 2 from rfl] at h1
    norm_num at h1
  · intro h
    exact absurd (List.chain'_cons.mp h).1 (lt_irrefl _)

theorem c5wit_recentHigh : Ranging.recentHighOf c5WitFrame = 6025/2 := by
  rw [Ranging.recentHighOf,
    show c5WitFrame.bars = List.replicate 40 (⟨6025/2, 5975/2, 3000⟩ : ADX.Bar) from rfl,
    List.map_replicate, Ind.pyTail, List.length_replicate]
  exact qListMax_replicate 39 _

theorem c5wit_recentLow : Ranging.recentLowOf c5WitFrame = 5975/2 := by
  rw [Ranging.recentLowOf,
    show c5WitFrame.bars = List.replicate 40 (⟨6025/2, 5975/2, 3000⟩ : ADX.Bar) from rfl,
    List.map_replicate, Ind.pyTail, List.length_replicate]
  exact qListMin_replicate 39 _

theorem c5wit_currentPrice : Ranging.currentPriceOf c5WitFrame = 3000 := by
  rw [Ranging.currentPriceOf,
    show c5WitFrame.bars = List.replicate 40 (⟨6025/2, 5975/2, 3000⟩ : ADX.Bar) from rfl,
    List.map_replicate, getLast_replicate 39]
  rfl

theorem c5wit_aOpt : Ranging.aOptOf c5WitFrame = some 2 := by
  rw [Ranging.aOptOf,
    show c5WitFrame.ATR = List.replicate 40 (F.val 2) from rfl,
    getLast_replicate 39]
  rfl

theorem c5wit_vol :
    Ranging.detectVolatilityRegime c5WitFrame = Ranging.VolRegime.NORMAL := by
  rw [Ranging.detectVolatilityRegime, if_pos (by decide)]

theorem c5wit_geometry : Ranging.geometryOf c5WitFrame = (20, 10, 2) := by
  rw [Ranging.geometryOf, c5wit_recentHigh, c5wit_recentLow, c5wit_aOpt, c5wit_vol,
    show (6025/2 - 5975/2 : ℚ) = 25 from by norm_num]
  exact gridGeometry_c5

theorem c5wit_buys : Ranging.buyCandidates 10 3000 2 (5975/2) =
    [2998, 2996, 2994, 2992, 2990, 2988, 2986, 2984, 2982, 2980] := by
  rw [buyCandidates_no_snap 10 3000 2 (5975/2)
    (fun i hi => by
      have hi9 : (i : ℚ) ≤ 9 := by exact_mod_cast Nat.lt_succ_iff.mp hi
      have hi0 : (0 : ℚ) ≤ (i : ℚ) := Nat.cast_nonneg i
      exact nearKey_none_far _ (by linarith))
    (fun i hi => by
      have hi9 : (i : ℚ) ≤ 9 := by exact_mod_cast Nat.lt_succ_iff.mp hi
      have hi0 : (0 : ℚ) ≤ (i : ℚ) := Nat.cast_nonneg i
      linarith),
    show List.range 10 = [0, 1, 2, 3, 4, 5, 6, 7, 8, 9] from by decide]
  simp only [List.map]
  norm_num

theorem c5wit_sells : Ranging.sellCandidates 10 3000 2 (6025/2) =
    [3002, 3004, 3006, 3008, 3010, 3012, 3014, 3016, 3018, 3020] := by
  rw [sellCandidates_no_snap 10 3000 2 (6025/2)
    (fun i hi => by
      have hi9 : (i : ℚ) ≤ 9 := by exact_mod_cast Nat.lt_succ_iff.mp hi
      have hi0 : (0 : ℚ) ≤ (i : ℚ) := Nat.cast_nonneg i
      exact nearKey_none_far _ (by linarith))
    (fun i hi => by
      have hi9 : (i : ℚ) ≤ 9 := by exact_mod_cast Nat.lt_succ_iff.mp hi
      have hi0 : (0 : ℚ) ≤ (i : ℚ) := Nat.cast_nonneg i
      linarith),
    show List.range 10 = [0, 1, 2, 3, 4, 5, 6, 7, 8, 9] from by decide]
  simp only [List.map]
  norm_num

theorem c5wit_grid : Ranging.buildDynamicGrid c5WitFrame none = some c5WitGrid := by
  rw [buildDynamicGrid_eq c5WitFrame (by decide) 20 10 2 c5wit_geometry,
    c5wit_currentPrice, c5wit_recentLow, c5wit_recentHigh, c5wit_vol, c5wit_aOpt,
    c5wit_buys, c5wit_sells,
    pySortDesc_eq_self _ (by norm_num [List.pairwise_cons, List.forall_mem_cons]),
    pySortAsc_eq_self _ (by norm_num [List.pairwise_cons, List.forall_mem_cons]),
    if_neg (by decide)]
  rfl

/-- Witness for the amended C5 statement: on the snap-free frame around 3000
the returned grid exists and both ladders are strictly monotone with exact
grid_width spacing. -/
theorem claim_C5_witness :
    Ranging.buildDynamicGrid c5WitFrame none = some c5WitGrid ∧
    List.Chain' (fun a b => a - b = c5WitGrid.grid_width ∧ b < a) c5WitGrid.buy_levels ∧
    List.Chain' (fun a b => b - a = c5WitGrid.grid_width ∧ a < b) c5WitGrid.sell_levels := by
  have hw : 0 < (Ranging.geometryOf c5WitFrame).2.2 := by
    rw [c5wit_geometry]
    norm_num
  have hcond : ∀ i < (Ranging.geometryOf c5WitFrame).2.1,
      Ranging.isNearKeyLevel
        (Ranging.currentPriceOf c5WitFrame -
          (Ranging.geometryOf c5WitFrame).2.2 * (i + 1)) = none ∧
      Ranging.isNearKeyLevel
        (Ranging.currentPriceOf c5WitFrame +
          (Ranging.geometryOf c5WitFrame).2.2 * (i + 1)) = none := by
    rw [c5wit_geometry, c5wit_currentPrice]
    intro i hi
    have hi10 : i < 10 := hi
    have hi9 : (i : ℚ) ≤ 9 := by exact_mod_cast Nat.lt_succ_iff.mp hi10
    have hi0 : (0 : ℚ) ≤ (i : ℚ) := Nat.cast_nonneg i
    refine ⟨nearKey_none_far _ (by push_cast; linarith),
      nearKey_none_far _ (by push_cast; linarith)⟩
  have h := claim_C5_theorem c5WitFrame c5WitGrid c5wit_grid
  exact ⟨c5wit_grid, (h.2 hw hcond).2.1, (h.2 hw hcond).2.2⟩
